import Mathlib

/-!
Verification of the memory-management and interrupt-dispatch core of the
`metallium` kernel against its specification.

The Rust sources are shallowly embedded: machine integers (`usize`/`u64`)
become `Nat` with explicit `% 2^64` where overflow matters, pointers become
plain addresses (`Nat`), fallible code (assertion failures, i.e. kernel
panics) returns `Option` where `none` models a panic, and MMIO / memory
side effects become explicit state passing or write traces.

Sections mirror the source layout:
- `Mapper` : `src/memory/mapper.rs` (address translation, kernel table build)
- `IOAPIC` : `src/interrupts/ioapic.rs` (register-write trace)
- `Paging` : `src/memory/paging_table.rs` (`map_page` precondition)
- `Stubs`  : `src/interrupts/mod.rs` (`write_interrupt_stub`)
- `MADT`   : `src/interrupts/apic.rs` (`MADT::process`)
- `Buddy`  : `src/memory/physical_buddy_allocator.rs`
-/

namespace Metallium

/-- `2^64`, the modulus of `usize`/`u64` arithmetic on x86-64. -/
def U64 : Nat := 2 ^ 64

namespace Mapper

/-- `KERNEL_MAP_BASE` from `src/memory/mapper.rs`. -/
def KERNEL_MAP_BASE : Nat := 0xFFFF800000000000


/-- `PAGE_SIZE` from `src/memory/mod.rs`. -/
def PAGE_SIZE : Nat := 0x1000


/-- `to_kernel_address` from `src/memory/mapper.rs`:
`KERNEL_MAP_BASE + pointer` on `usize` (wrapping at `2^64` as in a release
build; a debug build would panic on the very same overflow). -/
def to_kernel_address (pointer : Nat) : Nat :=
  (KERNEL_MAP_BASE + pointer) % U64


/-- `is_kernel_address` from `src/memory/mapper.rs`:
`(value & KERNEL_MAP_BASE) == KERNEL_MAP_BASE`. -/
def is_kernel_address (value : Nat) : Bool :=
  value &&& KERNEL_MAP_BASE == KERNEL_MAP_BASE


/-- `to_physical_address` from `src/memory/mapper.rs`: `value & !KERNEL_MAP_BASE`,
the complement being taken in 64 bits. -/
def to_physical_address (value : Nat) : Nat :=
  value &&& (U64 - 1 - KERNEL_MAP_BASE)

end Mapper
namespace Paging

/-- `PagingEntryFlags` bits from `src/memory/paging_table.rs`. -/
def Present : Nat := 1 <<< 0


def Writable : Nat := 1 <<< 1


def UserFlag : Nat := 1 <<< 2


def Cached : Nat := 1 <<< 4


def PageSizeExtension : Nat := 1 <<< 7


/-- `PAGE_ENTRY_PHYSICAL_ADDRESS_MASK` from `src/memory/paging_table.rs`. -/
def PAGE_ENTRY_PHYSICAL_ADDRESS_MASK : Nat := 0x7fffffffff000


/-- `physical_address_from_entry` from `src/memory/paging_table.rs`. -/
def physical_address_from_entry (entry : Nat) : Nat :=
  entry &&& PAGE_ENTRY_PHYSICAL_ADDRESS_MASK

end Paging
namespace Mapper

/-- Local constants of `switch_to_kernel_paging_table` in `src/memory/mapper.rs`. -/
def SW_L4_SIZE : Nat := 0x8000000000


def SW_L3_SIZE : Nat := 0x40000000


def SW_L2_SIZE : Nat := 0x200000


/-- `KERNEL_ENTRY_INDEX` from `src/memory/mapper.rs`. -/
def KERNEL_ENTRY_INDEX : Nat := 0x100


/-- `PAGE_ENTRY_COUNT_PER_LEVEL` from `src/memory/mapper.rs`. -/
def PAGE_ENTRY_COUNT_PER_LEVEL : Nat := 512


/-- Modelled from the spec: `PhysicalAddress::next_multiple_of`, called by
`switch_to_kernel_paging_table` but absent from the sources under `src/`
(only `PhysicalAddress::{is_aligned, align, ceil, value}` appear there).
Per the spec it computes the round-up to a multiple — "Compute required L3
(`ceil(max/1 GiB)`) and L2 (`ceil(max/2 MiB)`) counts; round each up to a
multiple of 512" — matching `usize::next_multiple_of`. -/
def next_multiple_of (v n : Nat) : Nat :=
  ((v + n - 1) / n) * n


/-- The three page-table slices built by `switch_to_kernel_paging_table`,
each table given as its array of 64-bit entries (index ↦ entry; entries the
code never writes stay `0` because the buffer is zero-filled first). -/
structure KernelTables where
  l3_count : Nat
  l2_count : Nat
  l4 : Nat → Nat
  l3 : Nat → Nat
  l2 : Nat → Nat


/-- `switch_to_kernel_paging_table` from `src/memory/mapper.rs`, as the
tables it constructs. `maxPhys` is `max_available_physical_address` and
`vb` the virtual address of the `Vec<u64>` buffer the entries live in
(a kernel-window address handed out by the global allocator). `none`
models the `assert!(l4_required_count == 1)` panic. The L2 fill mirrors
the source literally: `*l2_base.add(index) = (index * PAGE_SIZE) as u64 | flags`
with `PAGE_SIZE = 0x1000` — not `L2_SIZE = 0x200000`. -/
def switch_to_kernel_paging_table (maxPhys vb : Nat) : Option KernelTables :=
  let l4_required_count := next_multiple_of maxPhys SW_L4_SIZE / SW_L4_SIZE
  let l3_required_count := next_multiple_of maxPhys SW_L3_SIZE / SW_L3_SIZE
  let l2_required_count := next_multiple_of maxPhys SW_L2_SIZE / SW_L2_SIZE
  if l4_required_count ≠ 1 then
    none
  else
    let l4_count := PAGE_ENTRY_COUNT_PER_LEVEL
    let l3_count := next_multiple_of l3_required_count PAGE_ENTRY_COUNT_PER_LEVEL
    let l2_count := next_multiple_of l2_required_count PAGE_ENTRY_COUNT_PER_LEVEL
    let l4_base := vb
    let l3_base := l4_base + l4_count * 8
    let l2_base := l3_base + l3_count * 8
    let flags := Paging.PageSizeExtension ||| Paging.Writable ||| Paging.Present
    some
      { l3_count := l3_count
        l2_count := l2_count
        l4 := fun index =>
          if index < l4_required_count then
            to_physical_address (l3_base + index * PAGE_ENTRY_COUNT_PER_LEVEL * 8)
              ||| flags
          else if index = KERNEL_ENTRY_INDEX then
            to_physical_address l3_base ||| flags
          else 0
        l3 := fun index =>
          if index < l3_required_count then
            to_physical_address (l2_base + index * PAGE_ENTRY_COUNT_PER_LEVEL * 8)
              ||| flags
          else 0
        l2 := fun index =>
          if index < l2_required_count then
            (index * PAGE_SIZE) ||| flags
          else 0 }

end Mapper
namespace IOAPIC

/-- Constants from `src/interrupts/ioapic.rs` and the `INTERRUPT_BASE`
constant from `src/interrupts/mod.rs`. -/
def IOREGSEL : Nat := 0x00


def IOWIN : Nat := 0x04


def IOREDTBL : Nat := 0x10


def DISABLE_FLAG : Nat := 1 <<< 16


def INTERRUPT_BASE : Nat := 0x20


/-- `IOAPIC::write_register`: selecting the register is a store of `index`
to `base + IOREGSEL` (offset 0) followed by a store of `value` to
`base + IOWIN` (offset 4). A write is modelled as the `(offset, value)`
pair it stores. -/
def write_register (index value : Nat) : List (Nat × Nat) :=
  [(IOREGSEL, index), (IOWIN, value)]


/-- `IOAPIC::get_redirection_entry_register`. -/
def get_redirection_entry_register (interrupt : Nat) : Nat :=
  IOREDTBL + interrupt * 2


/-- `IOAPIC::disable`: mask the redirection entry by writing `DISABLE_FLAG`
to the low register and `0` to the high register. -/
def disable (interrupt : Nat) : List (Nat × Nat) :=
  write_register (get_redirection_entry_register interrupt) DISABLE_FLAG ++
    write_register (get_redirection_entry_register interrupt + 1) 0


/-- `IOAPIC::redirect_extended` (`u8` fields; booleans as bit flags). -/
def redirect_extended (source_interrupt destination_interrupt delivery_mode : Nat)
    (logical_destination active_low trigger_level_mode masked : Bool)
    (cpu : Nat) : List (Nat × Nat) :=
  let redirection_entry_1 :=
    destination_interrupt |||
      ((delivery_mode &&& 0b111) <<< 8) |||
      ((cond logical_destination 1 0) <<< 11) |||
      ((cond active_low 1 0) <<< 13) |||
      ((cond trigger_level_mode 1 0) <<< 15) |||
      ((cond masked 1 0) <<< 16)
  let redirection_entry_2 := cpu <<< 24
  let register := get_redirection_entry_register source_interrupt
  write_register register redirection_entry_1 ++
    write_register (register + 1) redirection_entry_2


/-- `IOAPIC::redirect`: mask the entry, then program it toward vector
`INTERRUPT_BASE + interrupt` (a wrapping `u8` addition) on `cpu`. -/
def redirect (interrupt cpu : Nat) : List (Nat × Nat) :=
  let source_interrupt := interrupt
  let destination_interrupt := (INTERRUPT_BASE + interrupt) % 256
  disable interrupt ++
    redirect_extended source_interrupt destination_interrupt 0
      false false false false cpu

end IOAPIC
namespace Mapper

/-- Huge-page size (2 MiB), the spec's alignment unit for `map_page`. -/
def HUGE_PAGE_SIZE : Nat := 0x200000


/-- `PhysicalAddress::align` / `VirtualAddress::align` from
`src/memory/mod.rs`: `self.0 & !(alignment - 1)` with a 64-bit complement.
The `assert!` that the alignment is a power of two always holds at the
call sites embedded here (all alignments are constant powers of two). -/
def align (v a : Nat) : Nat :=
  v &&& (U64 - 1 - (a - 1))


/-- `PhysicalAddress::is_aligned` / `VirtualAddress::is_aligned` from
`src/memory/mod.rs`: `(self.0 & (alignment - 1)) == 0` (power-of-two
alignments only, as at every embedded call site). -/
def is_aligned (v a : Nat) : Bool :=
  v &&& (a - 1) == 0

end Mapper
namespace Paging

/-- `PagingFlags` from `src/memory/paging_table.rs`. -/
structure PagingFlags where
  noCache : Bool
  noFlush : Bool
  user : Bool


/-- Modelled from the spec: `VirtualAddress::is_page_aligned` and
`PhysicalAddress::is_page_aligned`, asserted by `PagingTable::map_page`
but absent from the sources under `src/` (`src/memory/mod.rs` defines only
`is_aligned`, `align`, `ceil`). The spec's contract for `map_page` is
"both addresses must be huge-page aligned", huge page being 2 MiB, so the
modelled predicate checks 2 MiB alignment. -/
def is_page_aligned (v : Nat) : Bool :=
  Mapper.is_aligned v Mapper.HUGE_PAGE_SIZE


/-- `PagingTable::set_address`. -/
def set_address (entry address : Nat) : Nat :=
  (entry &&& (U64 - 1 - PAGE_ENTRY_PHYSICAL_ADDRESS_MASK)) |||
    (address &&& PAGE_ENTRY_PHYSICAL_ADDRESS_MASK)


/-- `PagingTable::set_writable`. -/
def set_writable (entry : Nat) : Nat := entry ||| Writable


/-- `PagingTable::set_cached`. -/
def set_cached (entry : Nat) (enabled : Bool) : Nat :=
  if enabled then entry ||| Cached else entry &&& (U64 - 1 - Cached)


/-- `PagingTable::set_user_accessability`. -/
def set_user_accessability (entry : Nat) (enabled : Bool) : Nat :=
  if enabled then entry ||| UserFlag else entry &&& (U64 - 1 - UserFlag)


/-- `PagingTable::set_page_size_extension`. -/
def set_page_size_extension (entry : Nat) (enabled : Bool) : Nat :=
  if enabled then entry ||| PageSizeExtension
  else entry &&& (U64 - 1 - PageSizeExtension)


/-- `PagingTable::set_present`. -/
def set_present (entry : Nat) : Nat := entry ||| Present


/-- `PagingTable::map_page` from `src/memory/paging_table.rs`, reduced to
what the claims observe: the two alignment asserts (`none` = panic) and
the L4/L3/L2 indices plus the L2 leaf entry written into a fresh (zeroed)
slot. The traversal's side effects (reusing or allocating intermediate
tables) do not influence the asserts or the leaf value and are not
modelled. -/
def map_page (virtual_address physical_address : Nat) (flags : PagingFlags) :
    Option (Nat × Nat × Nat × Nat) :=
  if ¬ is_page_aligned virtual_address then none
  else if ¬ is_page_aligned physical_address then none
  else
    let l2_index := (virtual_address >>> 21) &&& 0b111111111
    let l3_index := (virtual_address >>> 30) &&& 0b111111111
    let l4_index := (virtual_address >>> 39) &&& 0b111111111
    let entry := set_address 0 physical_address
    let entry := set_writable entry
    let entry := set_cached entry (!flags.noCache)
    let entry := set_user_accessability entry flags.user
    let entry := set_page_size_extension entry true
    let entry := set_present entry
    some (l4_index, l3_index, l2_index, entry)

end Paging
namespace Mapper

/-- `map_kernel_page_unaligned` from `src/memory/mapper.rs`: computes the
kernel-window virtual address, aligns both addresses with
`PAGE_SIZE = 0x1000` (not the huge-page size), maps, and returns the
unrounded virtual address. `none` models a panic inside `map_page`. -/
def map_kernel_page_unaligned (physical_address : Nat)
    (flags : Paging.PagingFlags) : Option Nat :=
  let virtual_address := to_kernel_address physical_address
  let aligned_physical_address := align physical_address PAGE_SIZE
  let aligned_virtual_address := align virtual_address PAGE_SIZE
  (Paging.map_page aligned_virtual_address aligned_physical_address flags).map
    (fun _ => virtual_address)

end Mapper
namespace Stubs

/-- `EXCEPTION_COUNT` and `GiB` from `src/interrupts/mod.rs` /
`src/memory/mod.rs`. -/
def EXCEPTION_COUNT : Nat := 32


def GiB : Nat := 0x40000000


/-- One byte store into the stub memory (bytes as `Nat`, addresses as
`Nat`). -/
def writeByte (mem : Nat → Nat) (p v : Nat) : Nat → Nat :=
  fun a => if a = p then v else mem a


/-- `ptr::write_unaligned::<u32>` on x86-64: four little-endian byte
stores. -/
def writeU32LE (mem : Nat → Nat) (p v : Nat) : Nat → Nat :=
  writeByte (writeByte (writeByte (writeByte mem
    p (v &&& 0xFF))
    (p + 1) ((v >>> 8) &&& 0xFF))
    (p + 2) ((v >>> 16) &&& 0xFF))
    (p + 3) ((v >>> 24) &&& 0xFF)


/-- Little-endian 32-bit read-back (for stating what the stored
displacement and immediate encode). -/
def readU32LE (mem : Nat → Nat) (p : Nat) : Nat :=
  mem p ||| (mem (p + 1) <<< 8) ||| (mem (p + 2) <<< 16) |||
    (mem (p + 3) <<< 24)


/-- The value a 32-bit relative `jmp` adds to the end-of-instruction
address: the stored dword sign-extended. -/
def signExtend32 (d : Nat) : Int :=
  if d < 2 ^ 31 then (d : Int) else (d : Int) - 2 ^ 32


/-- Result of one stub emission: the byte memory after the stores and the
returned next-stub pointer. -/
structure StubResult where
  mem : Nat → Nat
  next : Nat


/-- `write_interrupt_stub` from `src/interrupts/mod.rs`. For a vector
below `EXCEPTION_COUNT` it stores `0x68` (push imm32) and the vector, then
`0xE9` and the 32-bit displacement, and returns `stub + 16`; for larger
vectors it stores the push twice. The `assert!(offset <= GiB)` is `none`;
the `offset as i32` truncation is the two's-complement `emod 2^32`.
No other byte of the 16-byte stride is stored. -/
def write_interrupt_stub (mem : Nat → Nat)
    (interrupt_stub interrupt_handler interrupt_number : Nat) :
    Option StubResult :=
  if interrupt_number < EXCEPTION_COUNT then
    let m := writeByte mem interrupt_stub 0x68
    let m := writeU32LE m (interrupt_stub + 1) interrupt_number
    let fromAddr := (interrupt_stub + 5) + 5
    let offset : Int := (interrupt_handler : Int) - (fromAddr : Int)
    if (GiB : Int) < offset then none
    else
      let m := writeByte m (interrupt_stub + 5) 0xe9
      let m := writeU32LE m (interrupt_stub + 6) ((offset % (2 ^ 32)).toNat)
      some ⟨m, (interrupt_stub + 10) + 6⟩
  else
    let m := writeByte mem interrupt_stub 0x68
    let m := writeU32LE m (interrupt_stub + 1) interrupt_number
    let m := writeByte m (interrupt_stub + 5) 0x68
    let m := writeU32LE m (interrupt_stub + 6) interrupt_number
    let fromAddr := (interrupt_stub + 10) + 5
    let offset : Int := (interrupt_handler : Int) - (fromAddr : Int)
    if (GiB : Int) < offset then none
    else
      let m := writeByte m (interrupt_stub + 10) 0xe9
      let m := writeU32LE m (interrupt_stub + 11) ((offset % (2 ^ 32)).toNat)
      some ⟨m, (interrupt_stub + 15) + 1⟩

end Stubs
namespace MADT

/-- `mem::size_of::<MADT>()`: 36-byte SDT header plus `local_apic_address`
and `flags`. -/
def MADT_SIZE : Nat := 44


/-- `mem::size_of::<MADTEntryHeader>()` (`kind: u8, length: u8`): the unit
by which `position.add(…)` scales, since `position` is a
`*const MADTEntryHeader`. -/
def ENTRY_HEADER_SIZE : Nat := 2


/-- `MAX_LOCAL_APIC_COUNT` from `src/interrupts/apic.rs`. -/
def MAX_LOCAL_APIC_COUNT : Nat := 256


/-- Modelled from the spec: `mapper::map_kernel_page`, called by
`MADT::process` but absent from the sources under `src/` (only
`map_kernel_page_unaligned` is there). Per the spec it maps the page and
"returns the unrounded virtual address" `to_kernel(phys)`, which is all
that MADT processing observes of it. -/
def map_kernel_page (physical_address : Nat) : Nat :=
  Mapper.to_kernel_address physical_address


/-- Little-endian read of `bytes` bytes at offset `p` of the entry stream
(bytes past the end of the stream read as `0`). -/
def readLE (stream : List Nat) (p bytes : Nat) : Nat :=
  (List.range bytes).foldr (fun i acc => stream.getD (p + i) 0 + 256 * acc) 0


/-- `APICInfo` from `src/interrupts/apic.rs`; the fixed `[u8; 256]` id
array is modelled by the list of ids written so far (in order), `0` models
the null register pointers. -/
structure APICInfo where
  local_apic_ids : List Nat
  local_apic_count : Nat
  local_apic_registers : Nat
  ioapic_registers : Nat
  deriving DecidableEq


/-- The entry loop of `MADT::process`, cursor and end both measured in
bytes from the first entry. Field offsets follow the `#[repr(C)]` layout
the Rust reads use: a local-APIC id at entry offset 3, an I/O-APIC
address (u32) at entry offset 4, and a local-APIC address override
(u64, 8-aligned in `LocalAPICAddressOverrideEntry`) at entry offset 8.
`none` models a panic (id array overflow) or a walk that outruns the
fuel (an entry with `length = 0` loops forever in the source). -/
def process_from (stream : List Nat) (endPos : Nat) :
    Nat → APICInfo → Nat → Option APICInfo
  | _, _, 0 => none
  | position, info, fuel + 1 =>
    if position < endPos then
      let kind := stream.getD position 0
      let len := stream.getD (position + 1) 0
      let step : Option APICInfo :=
        if kind = 0 then
          if info.local_apic_count < MAX_LOCAL_APIC_COUNT then
            some { info with
              local_apic_ids :=
                info.local_apic_ids ++ [stream.getD (position + 3) 0]
              local_apic_count := info.local_apic_count + 1 }
          else none
        else if kind = 1 then
          if info.ioapic_registers = 0 then
            some { info with
              ioapic_registers := map_kernel_page (readLE stream (position + 4) 4) }
          else some info
        else if kind = 5 then
          some { info with
            local_apic_registers := map_kernel_page (readLE stream (position + 8) 8) }
        else some info
      match step with
      | none => none
      | some info' => process_from stream endPos (position + len) info' fuel
    else some info


/-- `MADT::process` from `src/interrupts/apic.rs`. `length` is the MADT's
`header.length`; the walk end is computed by
`position.add(length - size_of::<MADT>())` on a `*const MADTEntryHeader`,
i.e. `2 * (length - 44)` bytes past the first entry — twice the byte span
the length declares. -/
def process (stream : List Nat) (length local_apic_address fuel : Nat) :
    Option APICInfo :=
  process_from stream ((length - MADT_SIZE) * ENTRY_HEADER_SIZE) 0
    { local_apic_ids := []
      local_apic_count := 0
      local_apic_registers := map_kernel_page local_apic_address
      ioapic_registers := 0 } fuel


/-- The walk as the spec words it — "Walk terminates when the cursor
reaches `madt.length − sizeof(MADT-header)`" (a byte count) — for
comparison with the source's scaled end. -/
def process_spec_end (stream : List Nat) (length local_apic_address fuel : Nat) :
    Option APICInfo :=
  process_from stream (length - MADT_SIZE) 0
    { local_apic_ids := []
      local_apic_count := 0
      local_apic_registers := map_kernel_page local_apic_address
      ioapic_registers := 0 } fuel


/-- The synthetic entry stream of claim C4 — local APIC id 0 (8 bytes),
I/O APIC at `0xFEC00000` (12 bytes), local-APIC address override
`0xFEE0000000000000` (12 bytes), local APIC id 1 (8 bytes) — followed by
five more 8-byte local-APIC records representing whatever memory happens
to follow the table. `header.length = 44 + 40 = 84` covers exactly the
first four. -/
def c4_stream : List Nat :=
  [0, 8, 0, 0, 0, 0, 0, 0,
   1, 12, 0, 0, 0x00, 0x00, 0xC0, 0xFE, 0, 0, 0, 0,
   5, 12, 0, 0, 0x00, 0x00, 0x00, 0x00, 0x00, 0x00, 0xE0, 0xFE,
   0, 8, 1, 1, 0, 0, 0, 0,
   0, 8, 2, 7, 0, 0, 0, 0,
   0, 8, 3, 8, 0, 0, 0, 0,
   0, 8, 4, 9, 0, 0, 0, 0,
   0, 8, 5, 10, 0, 0, 0, 0,
   0, 8, 6, 11, 0, 0, 0, 0]

end MADT
namespace Buddy

/-- Constants from `src/memory/physical_buddy_allocator.rs`. -/
def MAX_MEMORY : Nat := 0x100000000


def LAYER_COUNT : Nat := 8


def L0_SIZE : Nat := 0x80000


def L1_SIZE : Nat := 0x40000


def L2_SIZE : Nat := 0x20000


def L3_SIZE : Nat := 0x10000


def L4_SIZE : Nat := 0x8000


def L5_SIZE : Nat := 0x4000


def L6_SIZE : Nat := 0x2000


def L7_SIZE : Nat := 0x1000


/-- The slab size of layer `depth`, as `setup_layers` computes it: starting
from `L0_SIZE` and halving per layer (`L0_SIZE = 2^19`). -/
def layerSize (depth : Nat) : Nat := L0_SIZE / 2 ^ depth


/-- The inline free-list node stored in the first bytes of a free slab
(`struct Slab { next, previous }`, physical addresses, `0` = null). -/
structure Slab where
  next : Nat
  previous : Nat
  deriving DecidableEq


/-- One `Layer`'s mutable state: its bitmap — represented by the (finite)
set of slab indices whose bit is set, i.e. unavailable — and the
`next`/`last` free-list heads (`Option<PhysicalAddress>`; `some 0` and
`none` are distinct, exactly as in the source). The `depth`, `size`,
`upper` and `lower` fields are structural and live in `layerSize` and the
recursion structure instead. -/
structure LayerState where
  bits : Finset Nat
  next : Option Nat
  last : Option Nat
  deriving DecidableEq


/-- A fresh (zero-filled) layer: empty bitmap, empty list. -/
def emptyLayer : LayerState := ⟨∅, none, none⟩


/-- The allocator state: the eight layers (list indices `0..7` are the
depths) and the physical memory holding the inline free-list nodes. -/
structure AllocState where
  layers : List LayerState
  mem : Nat → Slab


/-- Layer `d` of the state. -/
def layerOf (st : AllocState) (d : Nat) : LayerState :=
  st.layers.getD d emptyLayer


/-- Update one layer. -/
def updateLayer (st : AllocState) (d : Nat) (f : LayerState → LayerState) :
    AllocState :=
  { st with layers := st.layers.set d (f (layerOf st d)) }


/-- Store an inline node at physical address `a`. -/
def writeSlab (st : AllocState) (a : Nat) (s : Slab) : AllocState :=
  { st with mem := fun a' => if a' = a then s else st.mem a' }


/-- `Layer::is_available`: the bitmap bit is clear. -/
def is_available (st : AllocState) (d slab : Nat) : Bool :=
  slab ∉ (layerOf st d).bits


/-- `Layer::set_available`: clear the bit. -/
def set_available (st : AllocState) (d slab : Nat) : AllocState :=
  updateLayer st d (fun l => { l with bits := l.bits.erase slab })


/-- `Layer::set_unavailable`: set the bit. -/
def set_unavailable (st : AllocState) (d slab : Nat) : AllocState :=
  updateLayer st d (fun l => { l with bits := insert slab l.bits })


/-- `Layer::add`: append `address` at the tail of layer `d`'s intrusive
free list. -/
def add (st : AllocState) (d address : Nat) : AllocState :=
  let lastOpt := (layerOf st d).last
  let st := writeSlab st address { next := 0, previous := lastOpt.getD 0 }
  let st := match lastOpt with
    | some last => writeSlab st last { st.mem last with next := address }
    | none => st
  let st :=
    if (layerOf st d).next = none then
      updateLayer st d (fun l => { l with next := some address })
    else st
  updateLayer st d (fun l => { l with last := some address })


/-- `Layer::remove`: unlink `address` using its inline node. Mirrors the
source exactly, including `self.next = Some(next)` /
`self.last = Some(previous)` — which store `some 0` (not `none`) when the
removed slab was the only element. -/
def remove (st : AllocState) (d address : Nat) : AllocState :=
  let slab := st.mem address
  let previous := slab.previous
  let next := slab.next
  let st :=
    if previous ≠ 0 then
      writeSlab st previous { st.mem previous with next := next }
    else st
  let st :=
    if next ≠ 0 then
      writeSlab st next { st.mem next with previous := previous }
    else st
  let st :=
    if some address = (layerOf st d).next then
      updateLayer st d (fun l => { l with next := some next })
    else st
  let st :=
    if some address = (layerOf st d).last then
      updateLayer st d (fun l => { l with last := some previous })
    else st
  st


/-- `Layer::try_take`: pop the head of layer `d`'s free list. -/
def try_take (st : AllocState) (d : Nat) : Option (Nat × AllocState) :=
  match (layerOf st d).next with
  | none => none
  | some slab =>
    let next := (st.mem slab).next
    if next ≠ 0 then
      let st := updateLayer st d (fun l => { l with next := some next })
      let st := writeSlab st next { st.mem next with previous := 0 }
      some (slab, st)
    else
      let st := updateLayer st d (fun l => { l with next := none, last := none })
      some (slab, st)


/-- `Layer::try_allocate`. -/
def try_allocate (st : AllocState) (d : Nat) : Option (Nat × AllocState) :=
  match try_take st d with
  | none => none
  | some (slab, st) => some (slab, set_unavailable st d (slab / layerSize d))


/-- `Layer::owns`. -/
def owns (st : AllocState) (d address : Nat) : Bool :=
  !(is_available st d (address / layerSize d))


/-- `Layer::is_split` (the alignment `assert!` is `none` = panic). The
`lower == null` test is `d = 7`. -/
def is_split (st : AllocState) (d address : Nat) : Option Bool :=
  if ¬ Mapper.is_aligned address (layerSize d) then none
  else if d = LAYER_COUNT - 1 then some false
  else if is_available st d (address / layerSize d) then some false
  else
    let lower_slab_index := address / layerSize d * 2
    some (!(is_available st (d + 1) lower_slab_index) ||
      !(is_available st (d + 1) (lower_slab_index + 1)))


/-- `Layer::split`, fuel-indexed (the source recursion descends one layer
per step; every embedded call supplies ample fuel). `none` models a panic
(the availability assert, a panic inside `is_split`) or the unreachable
null-`lower` dereference. -/
def split (st : AllocState) (d tgt address : Nat) : Nat → Option (Nat × AllocState)
  | 0 => none
  | fuel + 1 =>
    let slab := Mapper.align address (layerSize d)
    let slab_index := slab / layerSize d
    if d = tgt then
      some (slab, set_unavailable st d slab_index)
    else if LAYER_COUNT - 1 ≤ d then
      none
    else
      match is_split st d slab with
      | none => none
      | some true => split st (d + 1) tgt address fuel
      | some false =>
        if ¬ is_available st d slab_index then none
        else
          let st := remove st d slab
          let st := set_unavailable st d slab_index
          let lower_slab := Mapper.align address (layerSize (d + 1))
          let lower_buddy_slab := lower_slab ^^^ layerSize (d + 1)
          let st := add st (d + 1) lower_buddy_slab
          split st (d + 1) tgt address fuel


/-- `Layer::unsplit` for a layer of depth `d` (structural recursion on the
depth: the `upper == null` case is depth 0). `addFlag` tells whether the
slab joins the free list when no merge happens. `none` models a panic
(the two asserts). -/
def unsplit : Nat → AllocState → Nat → Bool → Option AllocState
  | 0, st, address, addFlag =>
    if ¬ Mapper.is_aligned address (layerSize 0) then none
    else
      let slab_index := address / layerSize 0
      if is_available st 0 slab_index then none
      else
        let st := set_available st 0 slab_index
        -- upper == null: no merge is possible at depth 0
        if addFlag then some (add st 0 address) else some st
  | d + 1, st, address, addFlag =>
    if ¬ Mapper.is_aligned address (layerSize (d + 1)) then none
    else
      let slab_index := address / layerSize (d + 1)
      if is_available st (d + 1) slab_index then none
      else
        let st := set_available st (d + 1) slab_index
        let buddy_slab := address ^^^ layerSize (d + 1)
        let buddy_slab_index := buddy_slab / layerSize (d + 1)
        if is_available st (d + 1) buddy_slab_index then
          let st := remove st (d + 1) buddy_slab
          let left_slab := min address buddy_slab
          unsplit d st left_slab addFlag
        else
          if addFlag then some (add st (d + 1) address) else some st


/-- `PhysicalBuddyAllocator::get_layer_index_by_size`. -/
def get_layer_index_by_size (bytes : Nat) : Option Nat :=
  if bytes > L0_SIZE then none
  else if bytes > L1_SIZE then some 0
  else if bytes > L2_SIZE then some 1
  else if bytes > L3_SIZE then some 2
  else if bytes > L4_SIZE then some 3
  else if bytes > L5_SIZE then some 4
  else if bytes > L6_SIZE then some 5
  else if bytes > L7_SIZE then some 6
  else some 7


/-- `core::alloc::Layout`: the size and alignment of a request. -/
structure Layout where
  size : Nat
  align : Nat


/-- The upward search loop of `allocate_physical_region`
(`for layer_index in (0..optimal_layer_index).rev()`): try layer `k - 1`,
then `k - 2`, … down to `0`. The outer `Option` is a panic inside
`split`; the inner `none` is "no slab found". -/
def alloc_search (st : AllocState) (optimal : Nat) :
    Nat → Option (Option (Nat × AllocState))
  | 0 => some none
  | k + 1 =>
    match try_take st k with
    | some (slab, st') => (split st' k optimal slab LAYER_COUNT).map some
    | none => alloc_search st optimal k


/-- `PhysicalBuddyAllocator::allocate_physical_region`. Only
`layout.size()` is consulted; `layout.align()` is never read. -/
def allocate_physical_region (st : AllocState) (layout : Layout) :
    Option (Option (Nat × AllocState)) :=
  let bytes := layout.size
  match get_layer_index_by_size bytes with
  | none => some none
  | some optimal_layer_index =>
    match try_allocate st optimal_layer_index with
    | some r => some (some r)
    | none => alloc_search st optimal_layer_index optimal_layer_index


/-- `PhysicalBuddyAllocator::allocate`: `none` models a panic — either an
assert inside `split` or the `expect("Out of memory")`. On success the
returned pointer is the kernel-window address of the physical slab. -/
def allocate (st : AllocState) (layout : Layout) : Option (Nat × AllocState) :=
  match allocate_physical_region st layout with
  | none => none
  | some none => none
  | some (some (physical_address, st')) =>
    some (Mapper.to_kernel_address physical_address, st')


/-- The owner-search loop of `PhysicalBuddyAllocator::deallocate`
(`for index in (0..LAYER_COUNT).rev()`): check layer `k - 1` (i.e. L7
first), … down to layer 0; when no layer owns the slab the loop falls
through and the function returns silently — `some st`, not a panic. -/
def dealloc_search (st : AllocState) (physical : Nat) : Nat → Option AllocState
  | 0 => some st
  | k + 1 =>
    if owns st k physical then unsplit k st physical true
    else dealloc_search st physical k


/-- `PhysicalBuddyAllocator::deallocate` (the unused `_layout` argument is
kept for the signature). `none` models a panic: the kernel-address assert
in `PhysicalAddress::from`, the `L7_SIZE` alignment assert, or an assert
inside `unsplit`. -/
def deallocate (st : AllocState) (address : Nat) (_layout : Layout) :
    Option AllocState :=
  if ¬ Mapper.is_kernel_address address then none
  else
    let physical := Mapper.to_physical_address address
    if ¬ Mapper.is_aligned physical L7_SIZE then none
    else dealloc_search st physical LAYER_COUNT


/-- The state right after `initialize` has zero-filled the allocation,
built the layer headers and run the reservation pass (`reserve` only sets
L0 bits; lists are still empty, the node memory is still zero-filled).
`reserved` is the set of L0 bits the pass left set. -/
def post_reservation_state (reserved : Finset Nat) : AllocState :=
  { layers := [⟨reserved, none, none⟩, emptyLayer, emptyLayer, emptyLayer,
      emptyLayer, emptyLayer, emptyLayer, emptyLayer]
    mem := fun _ => ⟨0, 0⟩ }


/-- The loop body of `add_available_slabs` over the slab indices. -/
def add_avail_loop (st : AllocState) : List Nat → AllocState
  | [] => st
  | slab :: rest =>
    let st' := if is_available st 0 slab then add st 0 (slab * L0_SIZE) else st
    add_avail_loop st' rest


/-- `PhysicalBuddyAllocator::add_available_slabs`: for each L0 slab index
from `start.next_multiple_of(L0_SIZE) / L0_SIZE` up to (excl.)
`max_available.align(L0_SIZE) / L0_SIZE`, append the slab to L0's free
list when its bit is clear. -/
def add_available_slabs (st : AllocState) (max_available start : Nat) :
    AllocState :=
  let slabs := Mapper.align max_available L0_SIZE / L0_SIZE
  let start_slab := Mapper.next_multiple_of start L0_SIZE / L0_SIZE
  add_avail_loop st (List.range' start_slab (slabs - start_slab))


/-- The free list of layer `d`, read off by chasing the intrusive `next`
pointers from the layer head, as `try_take`/`remove` do (`0` terminates,
matching the `PhysicalAddress::null()` sentinel checks). -/
def chainFrom (mem : Nat → Slab) : Option Nat → Nat → List Nat
  | _, 0 => []
  | none, _ => []
  | some a, fuel + 1 =>
    a :: (if (mem a).next = 0 then [] else chainFrom mem (some ((mem a).next)) fuel)


/-- The free list of layer `d` (with chase fuel). -/
def freeList (st : AllocState) (d fuel : Nat) : List Nat :=
  chainFrom st.mem (layerOf st d).next fuel

end Buddy
namespace Scenario

/-- A freshly initialized allocator whose reservation pass set no bits,
over `[0, 3·L0)` of RAM with the kernel ending at `L0`: L0 slabs 1 and 2
(addresses `0x80000` and `0x100000`) end up on the L0 free list, in that
order. -/
def twoSlabInit : Buddy.AllocState :=
  Buddy.add_available_slabs (Buddy.post_reservation_state ∅)
    (3 * Buddy.L0_SIZE) Buddy.L0_SIZE


/-- One full allocate/deallocate cycle of an L0-sized request on
`twoSlabInit`. -/
def twoSlabCycle : Option Buddy.AllocState :=
  (Buddy.allocate twoSlabInit ⟨Buddy.L0_SIZE, 8⟩).bind
    (fun r => Buddy.deallocate r.2 r.1 ⟨Buddy.L0_SIZE, 8⟩)


/-- A freshly initialized allocator with a single free L0 slab
(address `0x80000`). -/
def oneSlabInit : Buddy.AllocState :=
  Buddy.add_available_slabs (Buddy.post_reservation_state ∅)
    (2 * Buddy.L0_SIZE) Buddy.L0_SIZE


/-- A full allocate/deallocate cycle of a 1-byte request on `oneSlabInit`:
the single L0 slab is split down to L7 and merged back on free. -/
def oneSlabSplitCycle : Option Buddy.AllocState :=
  (Buddy.allocate oneSlabInit ⟨1, 8⟩).bind
    (fun r => Buddy.deallocate r.2 r.1 ⟨1, 8⟩)


/-- A state whose L7 free list holds the single page `0x1000`: an
allocation with `align = 0x2000` is served from it regardless. -/
def c10State : Buddy.AllocState :=
  { layers := [Buddy.emptyLayer, Buddy.emptyLayer, Buddy.emptyLayer,
      Buddy.emptyLayer, Buddy.emptyLayer, Buddy.emptyLayer, Buddy.emptyLayer,
      ⟨∅, some 0x1000, some 0x1000⟩]
    mem := fun _ => ⟨0, 0⟩ }

end Scenario
namespace Buddy

/-- Layer `d`'s list state represents the sequence `l` of free slabs, head
to tail: the head/tail pointers match and the inline `next` chain walks
`l` in order, ending in the null sentinel. -/
def Repr (st : AllocState) (d : Nat) (l : List Nat) : Prop :=
  (layerOf st d).next = l.head? ∧
  (layerOf st d).last = l.getLast? ∧
  l.Chain' (fun x y => (st.mem x).next = y) ∧
  (∀ x, l.getLast? = some x → (st.mem x).next = 0)

end Buddy
end Metallium


namespace Metallium
namespace Mapper

theorem complement_kernel_map_base : U64 - 1 - KERNEL_MAP_BASE = 2 ^ 47 - 1 := by
  decide


theorem kernel_map_base_eq : KERNEL_MAP_BASE = (2 ^ 17 - 1) <<< 47 := by
  decide


theorem to_physical_address_eq_mod (v : Nat) :
    to_physical_address v = v % 2 ^ 47 := by
  rw [to_physical_address, complement_kernel_map_base,
    Nat.and_pow_two_sub_one_eq_mod]

end Mapper

/-! ### Claim C6: address-translation round trip -/


/-- The claim fails at the boundary `p = 2^47` that the claim itself includes:
`to_kernel(2^47)` wraps to `0`, and `to_physical(0) = 0 ≠ 2^47`. -/
theorem claim_C6_counterexample :
    Mapper.to_physical_address (Mapper.to_kernel_address (2 ^ 47)) = 0 ∧
      (0 : Nat) ≠ 2 ^ 47 := by
  constructor
  · decide
  · decide


/-- C6 (amended): for every physical `p < 2^47` (strictly below the boundary),
`to_physical(to_kernel(p)) = p`; and for every 64-bit virtual `v` with all
`KERNEL_MAP_BASE` bits set, `to_kernel(to_physical(v)) = v`. -/
theorem claim_C6_roundtrip :
    (∀ p : Nat, p < 2 ^ 47 →
      Mapper.to_physical_address (Mapper.to_kernel_address p) = p) ∧
    (∀ v : Nat, v < 2 ^ 64 → Mapper.is_kernel_address v = true →
      Mapper.to_kernel_address (Mapper.to_physical_address v) = v) := by
  constructor
  · intro p hp
    rw [Mapper.to_physical_address_eq_mod, Mapper.to_kernel_address]
    have hbase : Mapper.KERNEL_MAP_BASE = 2 ^ 64 - 2 ^ 47 := by decide
    have hU : U64 = 2 ^ 64 := rfl
    rw [hbase, hU]
    omega
  · intro v hv hk
    have h : v &&& Mapper.KERNEL_MAP_BASE = Mapper.KERNEL_MAP_BASE := by
      simpa [Mapper.is_kernel_address] using hk
    -- the top 17 bits of `v` are all set, so `v / 2^47 = 2^17 - 1`
    have hhi : v / 2 ^ 47 = 2 ^ 17 - 1 := by
      have hle : 2 ^ 17 - 1 ≤ v / 2 ^ 47 := by
        apply Nat.le_of_testBit
        intro i hi
        have hilt : i < 17 := by
          by_contra hge
          rw [Nat.testBit_two_pow_sub_one] at hi
          simp at hi
          omega
        have hbit : Nat.testBit Mapper.KERNEL_MAP_BASE (47 + i) = true := by
          rw [Mapper.kernel_map_base_eq, Nat.testBit_shiftLeft]
          simp only [Nat.testBit_two_pow_sub_one, Bool.and_eq_true,
            decide_eq_true_eq]
          omega
        have hv' : Nat.testBit v (47 + i) = true := by
          have := congrArg (fun x => Nat.testBit x (47 + i)) h
          simp only [Nat.testBit_and, hbit, Bool.and_true] at this
          exact this
        have : Nat.testBit (v >>> 47) i = true := by
          rw [Nat.testBit_shiftRight]
          exact hv'
        rwa [Nat.shiftRight_eq_div_pow] at this
      have hlt : v / 2 ^ 47 < 2 ^ 17 := by
        apply Nat.div_lt_of_lt_mul
        calc v < 2 ^ 64 := hv
          _ = 2 ^ 47 * 2 ^ 17 := by norm_num
      omega
    rw [Mapper.to_physical_address_eq_mod, Mapper.to_kernel_address]
    have hbase : Mapper.KERNEL_MAP_BASE = 2 ^ 64 - 2 ^ 47 := by decide
    have hU : U64 = 2 ^ 64 := rfl
    rw [hbase, hU]
    omega


/-- Witness instantiating `claim_C6_roundtrip` at concrete inputs. -/
theorem claim_C6_roundtrip_witness :
    Mapper.to_physical_address (Mapper.to_kernel_address 0x1234) = 0x1234 ∧
      Mapper.to_kernel_address
        (Mapper.to_physical_address 0xFFFF800000005678) = 0xFFFF800000005678 :=
  ⟨claim_C6_roundtrip.1 0x1234 (by norm_num),
   claim_C6_roundtrip.2 0xFFFF800000005678 (by norm_num) (by decide)⟩


/-! ### Claim C1: identity coverage of the kernel paging table

The source fills each L2 leaf with `index * PAGE_SIZE` (`0x1000`), although
the table is walked with 2 MiB (`PageSize`) leaves and the surrounding code
(the `L2_SIZE = 0x200000` constant, the "huge pages (2 MiB)" comment and the
identity-map intent) requires `index * 0x200000`. Every leaf except index 0
therefore maps its 2 MiB virtual range to the wrong frame. -/


/-- C1 (code bug): with `M = 4 MiB` the second L2 leaf holds frame `0x1000`,
not `0x200000`: virtual `0x200000` (and `KERNEL_MAP_BASE + 0x200000`) is not
identity mapped. The flags `PageSize|Writable|Present = 0x83` are present as
claimed, but the frame is `index * PAGE_SIZE`, off by a factor of 512. -/
theorem claim_C1_l2_leaf_wrong_frame :
    (Mapper.switch_to_kernel_paging_table 0x400000 Mapper.KERNEL_MAP_BASE).map
        (fun T => T.l2 1) = some 0x1083 ∧
      Paging.physical_address_from_entry 0x1083 = 0x1000 ∧
      (0x1000 : Nat) ≠ 1 * Mapper.SW_L2_SIZE ∧
      (0x1083 : Nat) &&& (Paging.PageSizeExtension ||| Paging.Writable |||
        Paging.Present) = 0x83 := by
  refine ⟨?_, by decide, by decide, by decide⟩
  decide


/-! ### Claim C5: the write trace of `IOAPIC::redirect(1, 0)` -/


/-- The claim's first `(IOREGSEL, IOWIN)` pair is `(0x12, 0)`, but the mask
step writes `DISABLE_FLAG = 1 <<< 16 = 0x10000` to the low register, not `0`
(the source: `let value = DISABLE_FLAG; self.write_register(register, value)`).
The second store of the trace carries `0x10000`. -/
theorem claim_C5_counterexample :
    (IOAPIC.redirect 1 0).get? 1 = some (0x04, 0x10000) ∧
      some ((0x04 : Nat), (0x10000 : Nat)) ≠ some ((0x04 : Nat), (0 : Nat)) := by
  exact ⟨by decide, by decide⟩


/-- C5 (amended): `redirect(1, 0)` performs exactly four `(IOREGSEL, IOWIN)`
write pairs, in order `(0x12, DISABLE_FLAG)`, `(0x13, 0)`, `(0x12, 0x21)`,
`(0x13, 0)`, where each pair is a store of the index to `base + 0` followed
by a store of the payload to `base + 4`. -/
theorem claim_C5_redirect_trace :
    IOAPIC.redirect 1 0 =
      [(0x00, 0x12), (0x04, 0x10000),
       (0x00, 0x13), (0x04, 0),
       (0x00, 0x12), (0x04, 0x21),
       (0x00, 0x13), (0x04, 0)] := by
  decide


/-! ### Claim C8: `map_page` alignment panic and `map_kernel_page` rounding -/


/-- The claim says `map_kernel_page` rounds both addresses to huge-page
alignment before invoking `map_page`. At `phys = 0x1000` the source rounds
with `PAGE_SIZE = 0x1000` only, leaving `0x1000` (huge-page rounding would
give `0`), and the inner `map_page` call panics on its alignment assert —
whereas the huge-page-rounded call the claim describes succeeds. -/
theorem claim_C8_counterexample :
    Mapper.align 0x1000 Mapper.PAGE_SIZE = 0x1000 ∧
      Mapper.align 0x1000 Mapper.HUGE_PAGE_SIZE = 0 ∧
      Mapper.map_kernel_page_unaligned 0x1000 ⟨true, false, false⟩ = none ∧
      Paging.map_page (Mapper.align (Mapper.to_kernel_address 0x1000)
          Mapper.HUGE_PAGE_SIZE)
        (Mapper.align 0x1000 Mapper.HUGE_PAGE_SIZE) ⟨true, false, false⟩ ≠
        none := by
  refine ⟨by decide, by decide, by decide, by decide⟩


/-- C8 (amended): `map_page` panics whenever the virtual or the physical
address fails the (spec-modelled) huge-page alignment check; and
`map_kernel_page` rounds both addresses only to `PAGE_SIZE` (4 KiB)
alignment — not huge-page alignment — before invoking `map_page`, as
witnessed on every physical address: the value passed on is
`align(phys, 0x1000)`. -/
theorem claim_C8_map_page_alignment :
    (∀ virt phys flags, Paging.is_page_aligned virt = false ∨
        Paging.is_page_aligned phys = false →
        Paging.map_page virt phys flags = none) ∧
    (∀ phys flags, Mapper.map_kernel_page_unaligned phys flags =
        (Paging.map_page (Mapper.align (Mapper.to_kernel_address phys)
            Mapper.PAGE_SIZE)
          (Mapper.align phys Mapper.PAGE_SIZE) flags).map
          (fun _ => Mapper.to_kernel_address phys)) := by
  constructor
  · intro virt phys flags h
    rcases h with h | h
    · simp [Paging.map_page, h]
    · simp [Paging.map_page, h]
  · intro phys flags
    rfl


/-- Witness instantiating `claim_C8_map_page_alignment` at a concrete
unaligned input. -/
theorem claim_C8_map_page_alignment_witness :
    Paging.map_page 0x1000 0 ⟨false, false, false⟩ = none :=
  claim_C8_map_page_alignment.1 0x1000 0 ⟨false, false, false⟩
    (Or.inl (by decide))

namespace Stubs

theorem signExtend32_emod (o : Int) (h₁ : -(2 ^ 31) ≤ o) (h₂ : o < 2 ^ 31) :
    signExtend32 ((o % (2 ^ 32)).toNat) = o := by
  unfold signExtend32
  rcases le_or_lt 0 o with ho | ho
  · have : o % (2 ^ 32) = o := by omega
    rw [this]
    have h3 : o.toNat < 2 ^ 31 := by omega
    rw [if_pos h3]
    omega
  · have : o % (2 ^ 32) = o + 2 ^ 32 := by omega
    rw [this]
    have h3 : ¬ (o + 2 ^ 32).toNat < 2 ^ 31 := by omega
    rw [if_neg h3]
    omega


theorem writeByte_ne {mem : Nat → Nat} {p v a : Nat} (h : a ≠ p) :
    writeByte mem p v a = mem a := if_neg h


theorem writeByte_self {mem : Nat → Nat} {p v : Nat} :
    writeByte mem p v p = v := if_pos rfl


theorem writeU32LE_ne {mem : Nat → Nat} {p v a : Nat}
    (h : a ≠ p ∧ a ≠ p + 1 ∧ a ≠ p + 2 ∧ a ≠ p + 3) :
    writeU32LE mem p v a = mem a := by
  unfold writeU32LE
  rw [writeByte_ne h.2.2.2, writeByte_ne h.2.2.1, writeByte_ne h.2.1,
    writeByte_ne h.1]


theorem lor_eq_add_of_mul {a b k : Nat} (hb : b < 2 ^ k)
    (ha : ∃ c, a = c * 2 ^ k) : a ||| b = a + b := by
  obtain ⟨c, rfl⟩ := ha
  rw [Nat.mul_comm, ← Nat.mul_add_lt_is_or hb c]


theorem writeU32LE_byte0 {mem : Nat → Nat} {p v : Nat} :
    writeU32LE mem p v p = v &&& 0xFF := by
  unfold writeU32LE
  rw [writeByte_ne (by omega), writeByte_ne (by omega), writeByte_ne (by omega),
    writeByte_self]


theorem writeU32LE_byte1 {mem : Nat → Nat} {p v : Nat} :
    writeU32LE mem p v (p + 1) = (v >>> 8) &&& 0xFF := by
  unfold writeU32LE
  rw [writeByte_ne (by omega), writeByte_ne (by omega), writeByte_self]


theorem writeU32LE_byte2 {mem : Nat → Nat} {p v : Nat} :
    writeU32LE mem p v (p + 2) = (v >>> 16) &&& 0xFF := by
  unfold writeU32LE
  rw [writeByte_ne (by omega), writeByte_self]


theorem writeU32LE_byte3 {mem : Nat → Nat} {p v : Nat} :
    writeU32LE mem p v (p + 3) = (v >>> 24) &&& 0xFF := by
  unfold writeU32LE
  rw [writeByte_self]


theorem readU32LE_writeU32LE {mem : Nat → Nat} {p v : Nat} (h : v < 2 ^ 32) :
    readU32LE (writeU32LE mem p v) p = v := by
  unfold readU32LE
  rw [writeU32LE_byte0, writeU32LE_byte1, writeU32LE_byte2, writeU32LE_byte3]
  have e1 : v &&& 0xFF = v % 2 ^ 8 := Nat.and_pow_two_sub_one_eq_mod v 8
  have e2 : (v >>> 8) &&& 0xFF = v / 2 ^ 8 % 2 ^ 8 := by
    rw [Nat.shiftRight_eq_div_pow]
    exact Nat.and_pow_two_sub_one_eq_mod _ 8
  have e3 : (v >>> 16) &&& 0xFF = v / 2 ^ 16 % 2 ^ 8 := by
    rw [Nat.shiftRight_eq_div_pow]
    exact Nat.and_pow_two_sub_one_eq_mod _ 8
  have e4 : (v >>> 24) &&& 0xFF = v / 2 ^ 24 % 2 ^ 8 := by
    rw [Nat.shiftRight_eq_div_pow]
    exact Nat.and_pow_two_sub_one_eq_mod _ 8
  rw [e1, e2, e3, e4, Nat.shiftLeft_eq, Nat.shiftLeft_eq, Nat.shiftLeft_eq]
  have b1 : v % 2 ^ 8 < 2 ^ 8 := Nat.mod_lt _ (by norm_num)
  have b2 : v / 2 ^ 8 % 2 ^ 8 < 2 ^ 8 := Nat.mod_lt _ (by norm_num)
  have b3 : v / 2 ^ 16 % 2 ^ 8 < 2 ^ 8 := Nat.mod_lt _ (by norm_num)
  have b4 : v / 2 ^ 24 % 2 ^ 8 < 2 ^ 8 := Nat.mod_lt _ (by norm_num)
  have s1 : v % 2 ^ 8 ||| v / 2 ^ 8 % 2 ^ 8 * 2 ^ 8 =
      v / 2 ^ 8 % 2 ^ 8 * 2 ^ 8 + v % 2 ^ 8 := by
    rw [Nat.lor_comm]
    exact lor_eq_add_of_mul b1 ⟨_, rfl⟩
  have hlt16 : v / 2 ^ 8 % 2 ^ 8 * 2 ^ 8 + v % 2 ^ 8 < 2 ^ 16 := by omega
  have s2 : v / 2 ^ 8 % 2 ^ 8 * 2 ^ 8 + v % 2 ^ 8 ||| v / 2 ^ 16 % 2 ^ 8 * 2 ^ 16 =
      v / 2 ^ 16 % 2 ^ 8 * 2 ^ 16 + (v / 2 ^ 8 % 2 ^ 8 * 2 ^ 8 + v % 2 ^ 8) := by
    rw [Nat.lor_comm]
    exact lor_eq_add_of_mul hlt16 ⟨_, rfl⟩
  have hlt24 : v / 2 ^ 16 % 2 ^ 8 * 2 ^ 16 +
      (v / 2 ^ 8 % 2 ^ 8 * 2 ^ 8 + v % 2 ^ 8) < 2 ^ 24 := by omega
  have s3 : v / 2 ^ 16 % 2 ^ 8 * 2 ^ 16 +
        (v / 2 ^ 8 % 2 ^ 8 * 2 ^ 8 + v % 2 ^ 8) ||| v / 2 ^ 24 % 2 ^ 8 * 2 ^ 24 =
      v / 2 ^ 24 % 2 ^ 8 * 2 ^ 24 + (v / 2 ^ 16 % 2 ^ 8 * 2 ^ 16 +
        (v / 2 ^ 8 % 2 ^ 8 * 2 ^ 8 + v % 2 ^ 8)) := by
    rw [Nat.lor_comm]
    exact lor_eq_add_of_mul hlt24 ⟨_, rfl⟩
  rw [s1, s2, s3]
  omega


theorem readU32LE_writeByte_ne {mem : Nat → Nat} {q v p : Nat}
    (h0 : p ≠ q) (h1 : p + 1 ≠ q) (h2 : p + 2 ≠ q) (h3 : p + 3 ≠ q) :
    readU32LE (writeByte mem q v) p = readU32LE mem p := by
  unfold readU32LE
  rw [writeByte_ne h0, writeByte_ne h1, writeByte_ne h2, writeByte_ne h3]


theorem readU32LE_writeU32LE_ne {mem : Nat → Nat} {q d p : Nat}
    (h : p + 3 < q ∨ q + 3 < p) :
    readU32LE (writeU32LE mem q d) p = readU32LE mem p := by
  unfold writeU32LE
  rw [readU32LE_writeByte_ne (by omega) (by omega) (by omega) (by omega),
    readU32LE_writeByte_ne (by omega) (by omega) (by omega) (by omega),
    readU32LE_writeByte_ne (by omega) (by omega) (by omega) (by omega),
    readU32LE_writeByte_ne (by omega) (by omega) (by omega) (by omega)]

end Stubs

/-! ### Claim C7: layout of the per-vector interrupt stubs -/


/-- The claim says the bytes of the 16-byte stride that follow the
`push`/`jmp` sequence are "filled with nop padding". They are not written
at all: for vector `0` the code stores bytes `0..9` and simply advances the
pointer by 6 more; a byte that held `0xCC` before emission still holds
`0xCC` (a nop fill would make it `0x90`). -/
theorem claim_C7_counterexample :
    (Stubs.write_interrupt_stub (fun _ => 0xCC) 0 0x100 0).map
        (fun r => r.mem 10) = some 0xCC ∧ (0xCC : Nat) ≠ 0x90 := by
  exact ⟨by decide, by decide⟩


/-- C7 (amended): for every vector `n < 256` (and a displacement within the
asserted bounds), the stub at `stub` begins with `0x68` followed by the
little-endian 32-bit vector; for `n ≥ 32` a second identical push follows;
then `0xE9` with a little-endian 32-bit displacement whose sign-extended
value lands exactly on the common entry `handler`; the next stub starts at
`stub + 16`; and the remaining bytes of the stride are left untouched
(no nop padding is emitted). -/
theorem claim_C7_stub_layout (mem : Nat → Nat) (stub handler n : Nat)
    (hn : n < 256)
    (hfit1 : n < 32 → -(2 ^ 31) ≤ (handler : Int) - ((stub : Int) + 10) ∧
      (handler : Int) - ((stub : Int) + 10) ≤ (Stubs.GiB : Int))
    (hfit2 : 32 ≤ n → -(2 ^ 31) ≤ (handler : Int) - ((stub : Int) + 15) ∧
      (handler : Int) - ((stub : Int) + 15) ≤ (Stubs.GiB : Int)) :
    ∃ r, Stubs.write_interrupt_stub mem stub handler n = some r ∧
      r.next = stub + 16 ∧
      r.mem stub = 0x68 ∧
      Stubs.readU32LE r.mem (stub + 1) = n ∧
      (n < 32 →
        r.mem (stub + 5) = 0xe9 ∧
        ((stub : Int) + 10) +
          Stubs.signExtend32 (Stubs.readU32LE r.mem (stub + 6)) = handler ∧
        ∀ k, 10 ≤ k → k < 16 → r.mem (stub + k) = mem (stub + k)) ∧
      (32 ≤ n →
        r.mem (stub + 5) = 0x68 ∧
        Stubs.readU32LE r.mem (stub + 6) = n ∧
        r.mem (stub + 10) = 0xe9 ∧
        ((stub : Int) + 15) +
          Stubs.signExtend32 (Stubs.readU32LE r.mem (stub + 11)) = handler ∧
        ∀ k, 15 ≤ k → k < 16 → r.mem (stub + k) = mem (stub + k)) := by
  have hn32 : n < 2 ^ 32 := by omega
  by_cases hb : n < 32
  · obtain ⟨hlo, hhi⟩ := hfit1 hb
    rw [Stubs.write_interrupt_stub, if_pos (by simpa [Stubs.EXCEPTION_COUNT] using hb)]
    rw [if_neg (by omega)]
    refine ⟨_, rfl, by show stub + 10 + 6 = stub + 16; omega, ?_, ?_, ?_, ?_⟩
    · show Stubs.writeU32LE (Stubs.writeByte (Stubs.writeU32LE
        (Stubs.writeByte mem stub 0x68) (stub + 1) n) (stub + 5) 0xe9)
          (stub + 6) _ stub = 0x68
      rw [Stubs.writeU32LE_ne (by omega), Stubs.writeByte_ne (by omega),
        Stubs.writeU32LE_ne (by omega), Stubs.writeByte_self]
    · rw [Stubs.readU32LE_writeU32LE_ne (by omega),
        Stubs.readU32LE_writeByte_ne (by omega) (by omega) (by omega) (by omega),
        Stubs.readU32LE_writeU32LE hn32]
    · intro _
      refine ⟨?_, ?_, ?_⟩
      · show Stubs.writeU32LE _ (stub + 6) _ (stub + 5) = 0xe9
        rw [Stubs.writeU32LE_ne (by omega), Stubs.writeByte_self]
      · rw [Stubs.readU32LE_writeU32LE (by omega)]
        rw [Stubs.signExtend32_emod _ (by omega) (by
          have : (Stubs.GiB : Int) = 2 ^ 30 := by decide
          omega)]
        omega
      · intro k hk1 hk2
        show Stubs.writeU32LE _ (stub + 6) _ (stub + k) = mem (stub + k)
        rw [Stubs.writeU32LE_ne (by omega), Stubs.writeByte_ne (by omega),
          Stubs.writeU32LE_ne (by omega), Stubs.writeByte_ne (by omega)]
    · intro hc
      omega
  · obtain ⟨hlo, hhi⟩ := hfit2 (by omega)
    rw [Stubs.write_interrupt_stub,
      if_neg (by simpa [Stubs.EXCEPTION_COUNT] using hb)]
    rw [if_neg (by omega)]
    refine ⟨_, rfl, by show stub + 15 + 1 = stub + 16; omega, ?_, ?_, ?_, ?_⟩
    · show Stubs.writeU32LE (Stubs.writeByte (Stubs.writeU32LE
        (Stubs.writeByte (Stubs.writeU32LE (Stubs.writeByte mem stub 0x68)
          (stub + 1) n) (stub + 5) 0x68) (stub + 6) n) (stub + 10) 0xe9)
            (stub + 11) _ stub = 0x68
      rw [Stubs.writeU32LE_ne (by omega), Stubs.writeByte_ne (by omega),
        Stubs.writeU32LE_ne (by omega), Stubs.writeByte_ne (by omega),
        Stubs.writeU32LE_ne (by omega), Stubs.writeByte_self]
    · rw [Stubs.readU32LE_writeU32LE_ne (by omega),
        Stubs.readU32LE_writeByte_ne (by omega) (by omega) (by omega) (by omega),
        Stubs.readU32LE_writeU32LE_ne (by omega),
        Stubs.readU32LE_writeByte_ne (by omega) (by omega) (by omega) (by omega),
        Stubs.readU32LE_writeU32LE hn32]
    · intro hc
      omega
    · intro _
      refine ⟨?_, ?_, ?_, ?_, ?_⟩
      · show Stubs.writeU32LE _ (stub + 11) _ (stub + 5) = 0x68
        rw [Stubs.writeU32LE_ne (by omega), Stubs.writeByte_ne (by omega),
          Stubs.writeU32LE_ne (by omega), Stubs.writeByte_self]
      · rw [Stubs.readU32LE_writeU32LE_ne (by omega),
          Stubs.readU32LE_writeByte_ne (by omega) (by omega) (by omega) (by omega),
          Stubs.readU32LE_writeU32LE hn32]
      · show Stubs.writeU32LE _ (stub + 11) _ (stub + 10) = 0xe9
        rw [Stubs.writeU32LE_ne (by omega), Stubs.writeByte_self]
      · rw [Stubs.readU32LE_writeU32LE (by omega)]
        rw [Stubs.signExtend32_emod _ (by omega) (by
          have : (Stubs.GiB : Int) = 2 ^ 30 := by decide
          omega)]
        omega
      · intro k hk1 hk2
        show Stubs.writeU32LE _ (stub + 11) _ (stub + k) = mem (stub + k)
        rw [Stubs.writeU32LE_ne (by omega), Stubs.writeByte_ne (by omega),
          Stubs.writeU32LE_ne (by omega), Stubs.writeByte_ne (by omega),
          Stubs.writeU32LE_ne (by omega), Stubs.writeByte_ne (by omega)]


/-- Witness instantiating `claim_C7_stub_layout` at vector 33. -/
theorem claim_C7_stub_layout_witness :
    ∃ r, Stubs.write_interrupt_stub (fun _ => 0xCC) 0 0x100 33 = some r ∧
      r.next = 0 + 16 ∧
      r.mem 0 = 0x68 ∧
      Stubs.readU32LE r.mem (0 + 1) = 33 ∧
      (33 < 32 →
        r.mem (0 + 5) = 0xe9 ∧
        ((0 : Int) + 10) +
          Stubs.signExtend32 (Stubs.readU32LE r.mem (0 + 6)) = 0x100 ∧
        ∀ k, 10 ≤ k → k < 16 → r.mem (0 + k) = 0xCC) ∧
      (32 ≤ 33 →
        r.mem (0 + 5) = 0x68 ∧
        Stubs.readU32LE r.mem (0 + 6) = 33 ∧
        r.mem (0 + 10) = 0xe9 ∧
        ((0 : Int) + 15) +
          Stubs.signExtend32 (Stubs.readU32LE r.mem (0 + 11)) = 0x100 ∧
        ∀ k, 15 ≤ k → k < 16 → r.mem (0 + k) = 0xCC) :=
  claim_C7_stub_layout (fun _ => 0xCC) 0 0x100 33 (by omega)
    (by omega)
    (by
      intro h
      constructor
      · norm_num
      · norm_num [Stubs.GiB])


/-! ### Claim C4: MADT processing of the synthetic table

Two slips make the claim fail on the source. First, the walk end is
`position.add(length - 44)` on a `*const MADTEntryHeader` (2 bytes), so
the cursor runs to `2·(length − 44)` bytes — past the declared entries and
into whatever follows (the same function advances the cursor with
`position.byte_add(entry.length)`, so bytes were clearly intended).
Second, `LocalAPICAddressOverrideEntry` is `#[repr(C)]` with a `u64`
field, which lands `address` at entry offset 8, while the 12-byte ACPI
record stores the override address at offset 4; the override register
value is read from the wrong bytes. -/


/-- C4 (code bug): on the synthetic MADT (`length = 84`) followed by five
stray 8-byte local-APIC records, the source walk visits all nine records
(`2·40 = 80` bytes), producing `local_apic_count = 7` and ids
`[0, 1, 7, 8, 9, 10, 11]` instead of the claimed `count = 2`, ids
`[0, 1]`; the I/O APIC register is the claimed `to_kernel(0xFEC00000)`,
but the override register is `to_kernel(0x01010800FEE00000)` — bytes taken
at offset 8 of the 12-byte record — not `to_kernel(0xFEE0000000000000)`.
The spec-worded walk end (`length − 44` bytes) does stop after the fourth
entry with `count = 2`. -/
theorem claim_C4_madt_walk :
    MADT.process MADT.c4_stream 84 0xFEE00000 20 =
      some { local_apic_ids := [0, 1, 7, 8, 9, 10, 11]
             local_apic_count := 7
             local_apic_registers :=
               Mapper.to_kernel_address 0x01010800FEE00000
             ioapic_registers := Mapper.to_kernel_address 0xFEC00000 } ∧
      (MADT.process_spec_end MADT.c4_stream 84 0xFEE00000 20).map
        (fun info => (info.local_apic_ids, info.local_apic_count)) =
        some ([0, 1], 2) ∧
      (7 : Nat) ≠ 2 ∧
      Mapper.to_kernel_address 0x01010800FEE00000 ≠
        Mapper.to_kernel_address 0xFEE0000000000000 := by
  refine ⟨by decide, by decide, by decide, by decide⟩


theorem and_high_mask_eq_div_mul (v k : Nat) (hv : v < 2 ^ 64) (hk : k ≤ 64) :
    v &&& (2 ^ 64 - 2 ^ k) = v / 2 ^ k * 2 ^ k := by
  have hmask : 2 ^ 64 - 2 ^ k = 2 ^ k * (2 ^ (64 - k) - 1) := by
    rw [Nat.mul_sub, Nat.mul_one, ← Nat.pow_add]
    congr 2
    omega
  have hrhs : v / 2 ^ k * 2 ^ k = 2 ^ k * (v / 2 ^ k) := Nat.mul_comm _ _
  rw [hmask, hrhs]
  apply Nat.eq_of_testBit_eq
  intro i
  rw [Nat.testBit_and, Nat.testBit_mul_pow_two, Nat.testBit_mul_pow_two]
  by_cases hik : i < k
  · simp [Nat.not_le_of_lt hik]
  · have hik' : k ≤ i := Nat.le_of_not_lt hik
    simp only [ge_iff_le, hik', decide_True, Bool.true_and]
    by_cases hi64 : i < 64
    · have hm : Nat.testBit (2 ^ (64 - k) - 1) (i - k) = true := by
        rw [Nat.testBit_two_pow_sub_one]
        simp only [decide_eq_true_eq]
        omega
      have hd : Nat.testBit (v / 2 ^ k) (i - k) = Nat.testBit v i := by
        rw [← Nat.shiftRight_eq_div_pow, Nat.testBit_shiftRight]
        congr 1
        omega
      rw [hm, hd, Bool.and_true]
    · have hv' : Nat.testBit v i = false :=
        Nat.testBit_lt_two_pow (lt_of_lt_of_le hv
          (Nat.pow_le_pow_right (by norm_num) (Nat.le_of_not_lt hi64)))
      have hm : Nat.testBit (2 ^ (64 - k) - 1) (i - k) = false := by
        rw [Nat.testBit_two_pow_sub_one]
        simp only [decide_eq_false_iff_not]
        omega
      have hd : Nat.testBit (v / 2 ^ k) (i - k) = Nat.testBit v i := by
        rw [← Nat.shiftRight_eq_div_pow, Nat.testBit_shiftRight]
        congr 1
        omega
      rw [hm, hd, hv', Bool.and_false]


theorem align_two_pow (v k : Nat) (hv : v < 2 ^ 64) (hk : k ≤ 64) :
    Mapper.align v (2 ^ k) = v / 2 ^ k * 2 ^ k := by
  have : U64 - 1 - (2 ^ k - 1) = 2 ^ 64 - 2 ^ k := by
    have h1 : (1 : Nat) ≤ 2 ^ k := Nat.one_le_two_pow
    have h2 : 2 ^ k ≤ 2 ^ 64 := Nat.pow_le_pow_right (by norm_num) hk
    unfold U64
    omega
  rw [Mapper.align, this]
  exact and_high_mask_eq_div_mul v k hv hk


/-! ### Claim C2: state restoration after freeing everything

Freed slabs re-enter their free list at the tail (`Layer::add` appends;
`Layer::try_take` pops the head), so one allocate/free cycle rotates the
list: the linkage — head/tail pointers and inline node fields — is not
restored byte-for-byte, only the bitmaps and the set of free slabs are. -/


/-- After one L0 allocate/free cycle on a two-slab heap the L0 head points
at `0x100000`, while post-initialization it pointed at `0x80000`: the
free-list linkage differs from the post-initialization state. -/
theorem claim_C2_counterexample :
    Scenario.twoSlabCycle.map (fun st => (Buddy.layerOf st 0).next) =
        some (some (2 * Buddy.L0_SIZE)) ∧
      (Buddy.layerOf Scenario.twoSlabInit 0).next = some (1 * Buddy.L0_SIZE) ∧
      some (2 * Buddy.L0_SIZE) ≠ some (1 * Buddy.L0_SIZE) := by
  refine ⟨by decide, by decide, by decide⟩


/-- C2 (amended): after freeing every live allocation the bitmaps are
restored byte-for-byte and each free list holds the same set of slabs, but
the linkage is rotated, not byte-for-byte equal — shown on the two-slab
cycle (the freed slab is re-appended at the tail, so the L0 list reads
`[0x100000, 0x80000]` instead of `[0x80000, 0x100000]`) — and on the
split-chain cycle, where the bitmaps are also restored but the intermediate
layers' emptied lists are left with `next = last = Some(0)` (`Layer::remove`
stores `Some(next)`/`Some(previous)`) instead of the initial `None`. -/
theorem claim_C2_bitmaps_restored_list_rotated :
    Scenario.twoSlabCycle.map (fun st => st.layers.map (·.bits)) =
        some (Scenario.twoSlabInit.layers.map (·.bits)) ∧
      Scenario.twoSlabCycle.map (fun st => Buddy.freeList st 0 3) =
        some [2 * Buddy.L0_SIZE, 1 * Buddy.L0_SIZE] ∧
      Buddy.freeList Scenario.twoSlabInit 0 3 =
        [1 * Buddy.L0_SIZE, 2 * Buddy.L0_SIZE] ∧
      [2 * Buddy.L0_SIZE, 1 * Buddy.L0_SIZE].Perm
        [1 * Buddy.L0_SIZE, 2 * Buddy.L0_SIZE] ∧
      Scenario.oneSlabSplitCycle.map (fun st => st.layers.map (·.bits)) =
        some (Scenario.oneSlabInit.layers.map (·.bits)) ∧
      Scenario.oneSlabSplitCycle.map (fun st => (Buddy.layerOf st 1).next) =
        some (some 0) ∧
      (Buddy.layerOf Scenario.oneSlabInit 1).next = none := by
  refine ⟨by decide, by decide, by decide, by decide, by decide, by decide,
    by decide⟩


/-! ### Claim C3: freeing twice / freeing a foreign address -/


/-- A double free does not panic: allocating the L0 slab `0x80000`, freeing
it, and freeing the same pointer again returns normally (the owner-search
loop of `deallocate` finds no layer whose bit is set and falls through),
and so does freeing a 4-KiB-aligned kernel-window pointer the allocator
never returned. -/
theorem claim_C3_counterexample :
    ((Buddy.allocate Scenario.twoSlabInit ⟨Buddy.L0_SIZE, 8⟩).bind
        (fun r => (Buddy.deallocate r.2 r.1 ⟨Buddy.L0_SIZE, 8⟩).bind
          (fun st2 => Buddy.deallocate st2 r.1 ⟨Buddy.L0_SIZE, 8⟩))).isSome =
        true ∧
      (Buddy.deallocate Scenario.twoSlabInit
        (Mapper.to_kernel_address (6 * Buddy.L0_SIZE)) ⟨8, 8⟩).isSome = true := by
  refine ⟨by decide, by decide⟩


theorem dealloc_search_silent (st : Buddy.AllocState) (p : Nat) :
    ∀ n, (∀ d, d < n → Buddy.owns st d p = false) →
      Buddy.dealloc_search st p n = some st := by
  intro n
  induction n with
  | zero => intro _; rfl
  | succ k ih =>
    intro h
    rw [Buddy.dealloc_search]
    rw [if_neg (by simp [h k (Nat.lt_succ_self k)])]
    exact ih (fun d hd => h d (Nat.lt_succ_of_lt hd))


/-- C3 (amended): deallocating a 4-KiB-aligned kernel-window address for
which every layer's bitmap bit is clear — which covers both an address
freed once whose buddies have merged back and an address the allocator
never returned over untouched memory — is a silent no-op: `deallocate`
returns normally and leaves the state unchanged, instead of panicking as
claimed. (`deallocate` panics only on a non-kernel-window or unaligned
pointer, or when a layer still marked unavailable trips the asserts
inside `unsplit`.) -/
theorem claim_C3_dealloc_silent_noop (st : Buddy.AllocState) (v : Nat)
    (layout : Buddy.Layout)
    (hk : Mapper.is_kernel_address v = true)
    (ha : Mapper.is_aligned (Mapper.to_physical_address v) Buddy.L7_SIZE = true)
    (hfree : ∀ d, d < 8 → Buddy.is_available st d
      (Mapper.to_physical_address v / Buddy.layerSize d) = true) :
    Buddy.deallocate st v layout = some st := by
  rw [Buddy.deallocate]
  rw [if_neg (by simp [hk])]
  rw [if_neg (by simp [ha])]
  exact dealloc_search_silent st (Mapper.to_physical_address v) 8
    (fun d hd => by simp [Buddy.owns, hfree d hd])


/-- Witness instantiating `claim_C3_dealloc_silent_noop` on the two-slab
heap at a never-returned address. -/
theorem claim_C3_dealloc_silent_noop_witness :
    Buddy.deallocate Scenario.twoSlabInit
        (Mapper.to_kernel_address (6 * Buddy.L0_SIZE)) ⟨8, 8⟩ =
      some Scenario.twoSlabInit :=
  claim_C3_dealloc_silent_noop Scenario.twoSlabInit
    (Mapper.to_kernel_address (6 * Buddy.L0_SIZE)) ⟨8, 8⟩
    (by decide) (by decide)
    (by
      intro d hd
      interval_cases d <;> decide)

namespace Buddy

theorem layerSize_eq_pow (d : Nat) (hd : d ≤ 19) :
    layerSize d = 2 ^ (19 - d) := by
  rw [layerSize, show L0_SIZE = 2 ^ 19 from rfl]
  exact Nat.pow_div hd (by norm_num)


theorem layerSize_pos (d : Nat) (hd : d ≤ 19) : 0 < layerSize d := by
  rw [layerSize_eq_pow d hd]
  exact Nat.pos_pow_of_pos _ (by norm_num)


theorem align_layerSize_mod (a d : Nat) (ha : a < 2 ^ 64) (hd : d ≤ 19) :
    Mapper.align a (layerSize d) % layerSize d = 0 := by
  rw [layerSize_eq_pow d hd, align_two_pow a (19 - d) ha (by omega)]
  exact Nat.mul_mod_left _ _


theorem split_some_addr :
    ∀ (fuel : Nat) (st : AllocState) (d tgt address p : Nat) (st' : AllocState),
      split st d tgt address fuel = some (p, st') →
      p = Mapper.align address (layerSize tgt) := by
  intro fuel
  induction fuel with
  | zero => intro st d tgt address p st' h; exact absurd h (by simp [split])
  | succ f ih =>
    intro st d tgt address p st' h
    rw [split] at h
    by_cases hdt : d = tgt
    · rw [if_pos hdt] at h
      simp only [Option.some.injEq, Prod.mk.injEq] at h
      rw [← h.1, hdt]
    · rw [if_neg hdt] at h
      by_cases hlc : LAYER_COUNT - 1 ≤ d
      · rw [if_pos hlc] at h
        exact absurd h (by simp)
      · rw [if_neg hlc] at h
        cases hsp : is_split st d (Mapper.align address (layerSize d)) with
        | none => rw [hsp] at h; exact absurd h (by simp)
        | some b =>
          rw [hsp] at h
          cases b with
          | true => exact ih _ _ _ _ _ _ h
          | false =>
            by_cases hav : ¬ is_available st d
                (Mapper.align address (layerSize d) / layerSize d)
            · rw [if_pos hav] at h
              exact absurd h (by simp)
            · rw [if_neg hav] at h
              exact ih _ _ _ _ _ _ h


theorem try_take_head (st : AllocState) (d slab : Nat) (st' : AllocState)
    (h : try_take st d = some (slab, st')) :
    (layerOf st d).next = some slab := by
  rw [try_take] at h
  cases hn : (layerOf st d).next with
  | none => rw [hn] at h; exact absurd h (by simp)
  | some a =>
    rw [hn] at h
    dsimp only at h
    by_cases hz : (st.mem a).next ≠ 0
    · rw [if_pos hz] at h
      simp only [Option.some.injEq, Prod.mk.injEq] at h
      exact congrArg some h.1
    · rw [if_neg hz] at h
      simp only [Option.some.injEq, Prod.mk.injEq] at h
      exact congrArg some h.1


theorem get_layer_index_le (bytes d : Nat)
    (h : get_layer_index_by_size bytes = some d) : d ≤ 7 := by
  rw [get_layer_index_by_size] at h
  split_ifs at h <;> simp_all <;> omega


theorem alloc_search_aligned (optimal : Nat) (hopt : optimal ≤ 19) :
    ∀ (k : Nat) (st : AllocState) (p : Nat) (st' : AllocState),
      k ≤ 8 →
      (∀ d s, d < 8 → (layerOf st d).next = some s → s < 2 ^ 64) →
      alloc_search st optimal k = some (some (p, st')) →
      p % layerSize optimal = 0 := by
  intro k
  induction k with
  | zero =>
    intro st p st' _ _ h
    exact absurd h (by simp [alloc_search])
  | succ j ih =>
    intro st p st' hk hheads h
    rw [alloc_search] at h
    cases htt : try_take st j with
    | none =>
      rw [htt] at h
      exact ih st p st' (by omega) hheads h
    | some r =>
      rw [htt] at h
      obtain ⟨slab, st2⟩ := r
      have hhead := try_take_head st j slab st2 htt
      have hbound := hheads j slab (by omega) hhead
      simp only [Option.map_eq_some'] at h
      obtain ⟨q, hq, hq2⟩ := h
      obtain ⟨p', st3⟩ := q
      have haddr := split_some_addr LAYER_COUNT st2 j optimal slab p' st3 hq
      simp only [Option.some.injEq, Prod.mk.injEq] at hq2
      rw [← hq2.1, haddr]
      exact align_layerSize_mod slab optimal hbound hopt

end Buddy

/-! ### Claim C10: layer choice ignores `layout.align()` -/


/-- C10: (i) the result of `allocate` is a function of `layout.size()`
alone — two layouts differing only in `align` allocate identically; (ii)
whenever `allocate` succeeds under the free-list head invariant (heads are
layer-aligned 64-bit addresses), the returned pointer is the kernel-window
address of a physical slab aligned to the chosen layer's slab size, the
layer being `get_layer_index_by_size(layout.size())`; (iii) concretely, a
request with `size = 8, align = 0x2000` served from an L7 head `0x1000`
returns `to_kernel(0x1000)`, whose alignment (`0x1000 = L7 slab size`) is
smaller than the requested `0x2000`. -/
theorem claim_C10_align_ignored :
    (∀ (st : Buddy.AllocState) (size a1 a2 : Nat),
      Buddy.allocate st ⟨size, a1⟩ = Buddy.allocate st ⟨size, a2⟩) ∧
    (∀ (st : Buddy.AllocState) (layout : Buddy.Layout) (v : Nat),
      (∀ d s, d < 8 → (Buddy.layerOf st d).next = some s →
        s < 2 ^ 64 ∧ s % Buddy.layerSize d = 0) →
      (Buddy.allocate st layout).map Prod.fst = some v →
      ∃ d p, Buddy.get_layer_index_by_size layout.size = some d ∧
        v = Mapper.to_kernel_address p ∧ p % Buddy.layerSize d = 0) ∧
    ((Buddy.allocate Scenario.c10State ⟨8, 0x2000⟩).map Prod.fst =
        some (Mapper.to_kernel_address 0x1000) ∧
      Mapper.to_kernel_address 0x1000 % 0x2000 ≠ 0 ∧
      Buddy.layerSize 7 < 0x2000) := by
  refine ⟨fun st size a1 a2 => rfl, ?_, by decide, by decide, by decide⟩
  intro st layout v hheads halloc
  rw [Buddy.allocate] at halloc
  cases happ : Buddy.allocate_physical_region st layout with
  | none => rw [happ] at halloc; exact absurd halloc (by simp)
  | some o =>
    rw [happ] at halloc
    cases o with
    | none => exact absurd halloc (by simp)
    | some r =>
      obtain ⟨p, st2⟩ := r
      dsimp only [Option.map_some'] at halloc
      have hv : v = Mapper.to_kernel_address p := by
        simp only [Option.some.injEq] at halloc
        exact halloc.symm
      rw [Buddy.allocate_physical_region] at happ
      cases hidx : Buddy.get_layer_index_by_size layout.size with
      | none => rw [hidx] at happ; exact absurd happ (by simp)
      | some optimal =>
        rw [hidx] at happ
        dsimp only at happ
        have hopt : optimal ≤ 7 := Buddy.get_layer_index_le _ _ hidx
        refine ⟨optimal, p, rfl, hv, ?_⟩
        cases hta : Buddy.try_allocate st optimal with
        | some q =>
          rw [hta] at happ
          obtain ⟨slab, st3⟩ := q
          simp only [Option.some.injEq, Prod.mk.injEq] at happ
          rw [Buddy.try_allocate] at hta
          cases htt : Buddy.try_take st optimal with
          | none => rw [htt] at hta; exact absurd hta (by simp)
          | some q2 =>
            rw [htt] at hta
            obtain ⟨slab2, st4⟩ := q2
            dsimp only at hta
            simp only [Option.some.injEq, Prod.mk.injEq] at hta
            have hhead := Buddy.try_take_head st optimal slab2 st4 htt
            have hal := (hheads optimal slab2 (by omega) hhead).2
            rw [← happ.1, ← hta.1]
            exact hal
        | none =>
          rw [hta] at happ
          exact Buddy.alloc_search_aligned optimal (by omega) optimal st p st2
            (by omega) (fun d s hd hh => (hheads d s hd hh).1) happ


/-- Witness instantiating part (ii) of `claim_C10_align_ignored` on the
concrete L7 state. -/
theorem claim_C10_align_ignored_witness :
    ∃ d p, Buddy.get_layer_index_by_size (8 : Nat) = some d ∧
      Mapper.to_kernel_address 0x1000 = Mapper.to_kernel_address p ∧
      p % Buddy.layerSize d = 0 :=
  claim_C10_align_ignored.2.1 Scenario.c10State ⟨8, 0x40⟩
    (Mapper.to_kernel_address 0x1000)
    (by
      intro d s hd hh
      interval_cases d <;>
        simp only [Scenario.c10State, Buddy.layerOf, Buddy.emptyLayer,
          List.getD_cons_zero, List.getD_cons_succ] at hh
      · exact absurd hh (by simp)
      · exact absurd hh (by simp)
      · exact absurd hh (by simp)
      · exact absurd hh (by simp)
      · exact absurd hh (by simp)
      · exact absurd hh (by simp)
      · exact absurd hh (by simp)
      · injection hh with hh
        subst hh
        constructor
        · decide
        · decide)
    (by decide)

namespace Buddy

theorem layerOf_updateLayer_self (st : AllocState) (d : Nat)
    (f : LayerState → LayerState) (h : d < st.layers.length) :
    layerOf (updateLayer st d f) d = f (layerOf st d) := by
  rw [layerOf, updateLayer]
  simp [List.getD_eq_getElem?_getD, List.getElem?_set_self h]


theorem layerOf_updateLayer_ne (st : AllocState) (d d' : Nat)
    (f : LayerState → LayerState) (h : d ≠ d') :
    layerOf (updateLayer st d f) d' = layerOf st d' := by
  rw [layerOf, updateLayer]
  simp [List.getD_eq_getElem?_getD, List.getElem?_set_ne h, layerOf]


theorem layerOf_writeSlab (st : AllocState) (a : Nat) (s : Slab) (d : Nat) :
    layerOf (writeSlab st a s) d = layerOf st d := rfl


theorem mem_updateLayer (st : AllocState) (d : Nat) (f : LayerState → LayerState) :
    (updateLayer st d f).mem = st.mem := rfl


theorem mem_writeSlab_self (st : AllocState) (a : Nat) (s : Slab) :
    (writeSlab st a s).mem a = s := if_pos rfl


theorem mem_writeSlab_ne (st : AllocState) (a : Nat) (s : Slab) (a' : Nat)
    (h : a' ≠ a) : (writeSlab st a s).mem a' = st.mem a' := if_neg h


theorem layers_length_updateLayer (st : AllocState) (d : Nat)
    (f : LayerState → LayerState) :
    (updateLayer st d f).layers.length = st.layers.length := by
  rw [updateLayer]
  exact List.length_set ..


theorem layers_length_writeSlab (st : AllocState) (a : Nat) (s : Slab) :
    (writeSlab st a s).layers.length = st.layers.length := rfl


theorem chain_of_mem_agree (mem mem' : Nat → Slab) :
    ∀ l : List Nat, (∀ x ∈ l.dropLast, mem' x = mem x) →
      l.Chain' (fun x y => (mem x).next = y) →
      l.Chain' (fun x y => (mem' x).next = y) := by
  intro l
  induction l with
  | nil => intro _ _; exact List.chain'_nil
  | cons a rest ih =>
    intro hagree hch
    cases rest with
    | nil => exact List.chain'_singleton a
    | cons b rest' =>
      rw [List.chain'_cons] at hch ⊢
      refine ⟨?_, ih ?_ hch.2⟩
      · rw [hagree a (by simp [List.dropLast])]
        exact hch.1
      · intro x hx
        exact hagree x (by simp [List.dropLast, hx])


theorem getLast_not_mem_dropLast (l : List Nat) (hne : l ≠ [])
    (hnd : l.Nodup) : l.getLast hne ∉ l.dropLast := by
  intro hmem
  have hsplit := List.dropLast_append_getLast hne
  rw [← hsplit] at hnd
  rw [List.nodup_append] at hnd
  exact hnd.2.2 hmem (by simp)


theorem layerOf_setNext_self (st : AllocState) (d : Nat) (v : Option Nat)
    (hlen : d < st.layers.length) :
    layerOf (updateLayer st d (fun l => { l with next := v })) d =
      { layerOf st d with next := v } :=
  layerOf_updateLayer_self st d _ hlen


theorem layerOf_setLast_self (st : AllocState) (d : Nat) (v : Option Nat)
    (hlen : d < st.layers.length) :
    layerOf (updateLayer st d (fun l => { l with last := v })) d =
      { layerOf st d with last := v } :=
  layerOf_updateLayer_self st d _ hlen


theorem layers_length_add (st : AllocState) (d a : Nat) :
    (add st d a).layers.length = st.layers.length := by
  rw [add]
  cases hlast : (layerOf st d).last <;>
    dsimp only <;>
    split <;>
    simp [layers_length_updateLayer, layers_length_writeSlab]


theorem bits_setNext (st : AllocState) (d : Nat) (v : Option Nat) (d' : Nat)
    (hlen : d < st.layers.length) :
    (layerOf (updateLayer st d (fun l => { l with next := v })) d').bits =
      (layerOf st d').bits := by
  by_cases hd : d = d'
  · subst hd
    rw [layerOf_setNext_self st d v hlen]
  · rw [layerOf_updateLayer_ne st d d' _ hd]


theorem bits_setLast (st : AllocState) (d : Nat) (v : Option Nat) (d' : Nat)
    (hlen : d < st.layers.length) :
    (layerOf (updateLayer st d (fun l => { l with last := v })) d').bits =
      (layerOf st d').bits := by
  by_cases hd : d = d'
  · subst hd
    rw [layerOf_setLast_self st d v hlen]
  · rw [layerOf_updateLayer_ne st d d' _ hd]


theorem bits_add (st : AllocState) (d a d' : Nat) (hlen : d < st.layers.length) :
    (layerOf (add st d a) d').bits = (layerOf st d').bits := by
  rw [add]
  cases hlast : (layerOf st d).last <;> dsimp only <;> split <;>
    simp only [bits_setNext, bits_setLast, layers_length_updateLayer,
      layers_length_writeSlab, hlen, layerOf_writeSlab]


theorem Repr_add (st : AllocState) (d a : Nat) (l : List Nat)
    (hlen : d < st.layers.length) (hrep : Repr st d l) (hnd : l.Nodup)
    (hna : a ∉ l) : Repr (add st d a) d (l ++ [a]) := by
  obtain ⟨hnext, hlast, hchain, hlastmem⟩ := hrep
  rw [add]
  cases l with
  | nil =>
    rw [List.getLast?_nil] at hlast
    rw [hlast]
    dsimp only
    simp only [Option.getD_none]
    rw [layerOf_writeSlab, hnext, List.head?_nil, if_pos rfl]
    have hl1 : d < (updateLayer (writeSlab st a ⟨0, 0⟩) d
        (fun l => { l with next := some a })).layers.length := by
      rw [layers_length_updateLayer, layers_length_writeSlab]
      exact hlen
    refine ⟨?_, ?_, ?_, ?_⟩
    · rw [layerOf_setLast_self _ _ _ hl1]
      dsimp only
      rw [layerOf_setNext_self _ _ _ (by rw [layers_length_writeSlab]; exact hlen)]
      simp
    · rw [layerOf_setLast_self _ _ _ hl1]
      simp
    · exact List.chain'_singleton a
    · intro x hx
      simp only [List.nil_append, List.getLast?_singleton, Option.some.injEq] at hx
      cases hx
      rw [mem_updateLayer, mem_updateLayer, mem_writeSlab_self]
  | cons h0 rest =>
    set l := h0 :: rest with hl
    have hlne : l ≠ [] := by simp [hl]
    have hLlast : l.getLast? = some (l.getLast hlne) := List.getLast?_eq_getLast l hlne
    rw [hLlast] at hlast
    rw [hlast]
    dsimp only
    set L := l.getLast hlne with hLdef
    have hLmem : L ∈ l := List.getLast_mem hlne
    have hLa : L ≠ a := fun he => hna (he ▸ hLmem)
    rw [layerOf_writeSlab, layerOf_writeSlab, hnext]
    rw [if_neg (by simp [hl])]
    have hlen2 : d < (writeSlab (writeSlab st a ⟨0, (some L).getD 0⟩) L
        { (writeSlab st a ⟨0, (some L).getD 0⟩).mem L with next := a }).layers.length := by
      rw [layers_length_writeSlab, layers_length_writeSlab]
      exact hlen
    refine ⟨?_, ?_, ?_, ?_⟩
    · rw [layerOf_setLast_self _ _ _ hlen2]
      dsimp only
      rw [layerOf_writeSlab, layerOf_writeSlab, hnext]
      cases rest <;> simp [hl]
    · rw [layerOf_setLast_self _ _ _ hlen2]
      rw [List.getLast?_concat]
    · rw [mem_updateLayer]
      apply List.Chain'.append
      · apply chain_of_mem_agree st.mem _ l _ hchain
        intro x hx
        have hxl : x ∈ l := List.dropLast_subset l hx
        have hxa : x ≠ a := fun he => hna (he ▸ hxl)
        have hxL : x ≠ L := by
          intro he
          exact getLast_not_mem_dropLast l hlne hnd (by rwa [he] at hx)
        rw [mem_writeSlab_ne _ _ _ _ hxL, mem_writeSlab_ne _ _ _ _ hxa]
      · exact List.chain'_singleton a
      · intro x hx y hy
        rw [hLlast, Option.mem_def, Option.some.injEq] at hx
        simp only [List.head?_cons, Option.mem_def, Option.some.injEq] at hy
        subst hx
        subst hy
        rw [mem_writeSlab_self]
    · intro x hx
      rw [List.getLast?_concat] at hx
      rw [Option.some.injEq] at hx
      subst hx
      rw [mem_updateLayer, mem_writeSlab_ne _ _ _ _ (Ne.symm hLa),
        mem_writeSlab_self]


theorem is_available_congr (st st' : AllocState) (d x : Nat)
    (h : (layerOf st' d).bits = (layerOf st d).bits) :
    is_available st' d x = is_available st d x := by
  rw [is_available, is_available, h]


theorem add_avail_loop_repr :
    ∀ (slabs : List Nat) (st : AllocState) (l : List Nat),
      st.layers.length = 8 →
      Repr st 0 l →
      l.Nodup →
      (∀ s ∈ slabs, ∀ x ∈ l, x < s * L0_SIZE) →
      slabs.Pairwise (· < ·) →
      (add_avail_loop st slabs).layers.length = 8 ∧
      (∀ d', (layerOf (add_avail_loop st slabs) d').bits = (layerOf st d').bits) ∧
      Repr (add_avail_loop st slabs) 0
        (l ++ (slabs.filter (fun s => is_available st 0 s)).map (· * L0_SIZE)) ∧
      (l ++ (slabs.filter (fun s => is_available st 0 s)).map (· * L0_SIZE)).Nodup := by
  intro slabs
  induction slabs with
  | nil =>
    intro st l hlen hrep hnd _ _
    simp only [add_avail_loop, List.filter_nil, List.map_nil, List.append_nil]
    exact ⟨hlen, fun _ => trivial, hrep, hnd⟩
  | cons s rest ih =>
    intro st l hlen hrep hnd hlt hpw
    rw [add_avail_loop]
    by_cases ha : is_available st 0 s = true
    · rw [if_pos ha]
      have hna : s * L0_SIZE ∉ l := fun hmem =>
        absurd (hlt s (List.mem_cons_self s rest) _ hmem) (lt_irrefl _)
      have hrep' : Repr (add st 0 (s * L0_SIZE)) 0 (l ++ [s * L0_SIZE]) :=
        Repr_add st 0 (s * L0_SIZE) l (by omega) hrep hnd hna
      have hlen' : (add st 0 (s * L0_SIZE)).layers.length = 8 := by
        rw [layers_length_add]; exact hlen
      have hnd' : (l ++ [s * L0_SIZE]).Nodup := by
        refine hnd.append (List.nodup_singleton _) ?_
        intro x hx hx'
        rw [List.mem_singleton] at hx'
        exact hna (hx' ▸ hx)
      have hlt' : ∀ s' ∈ rest, ∀ x ∈ l ++ [s * L0_SIZE], x < s' * L0_SIZE := by
        intro s' hs' x hx
        rcases List.mem_append.mp hx with hx | hx
        · exact hlt s' (List.mem_cons_of_mem s hs') x hx
        · rw [List.mem_singleton] at hx
          subst hx
          have hss : s < s' := (List.pairwise_cons.mp hpw).1 s' hs'
          have : (0 : Nat) < L0_SIZE := by norm_num [L0_SIZE]
          exact (Nat.mul_lt_mul_right this).mpr hss
      obtain ⟨ihlen, ihbits, ihrep, ihnd⟩ :=
        ih (add st 0 (s * L0_SIZE)) (l ++ [s * L0_SIZE]) hlen' hrep' hnd' hlt'
          (List.Pairwise.of_cons hpw)
      have hbits0 : ∀ d', (layerOf (add st 0 (s * L0_SIZE)) d').bits =
          (layerOf st d').bits := fun d' => bits_add st 0 (s * L0_SIZE) d' (by omega)
      have hfilt : rest.filter (fun x => is_available (add st 0 (s * L0_SIZE)) 0 x) =
          rest.filter (fun x => is_available st 0 x) :=
        List.filter_congr (fun x _ => by rw [is_available_congr _ _ _ _ (hbits0 0)])
      rw [hfilt] at ihrep ihnd
      rw [List.filter_cons_of_pos (by exact ha), List.map_cons]
      refine ⟨ihlen, fun d' => (ihbits d').trans (hbits0 d'), ?_, ?_⟩
      · rw [show l ++ s * L0_SIZE :: (rest.filter
            (fun s => is_available st 0 s)).map (· * L0_SIZE) =
          (l ++ [s * L0_SIZE]) ++ (rest.filter
            (fun s => is_available st 0 s)).map (· * L0_SIZE) by simp]
        exact ihrep
      · rw [show l ++ s * L0_SIZE :: (rest.filter
            (fun s => is_available st 0 s)).map (· * L0_SIZE) =
          (l ++ [s * L0_SIZE]) ++ (rest.filter
            (fun s => is_available st 0 s)).map (· * L0_SIZE) by simp]
        exact ihnd
    · rw [if_neg ha]
      have hlt' : ∀ s' ∈ rest, ∀ x ∈ l, x < s' * L0_SIZE :=
        fun s' hs' x hx => hlt s' (List.mem_cons_of_mem s hs') x hx
      obtain ⟨ihlen, ihbits, ihrep, ihnd⟩ :=
        ih st l hlen hrep hnd hlt' (List.Pairwise.of_cons hpw)
      rw [List.filter_cons_of_neg (by simpa using ha)]
      exact ⟨ihlen, ihbits, ihrep, ihnd⟩


theorem chainFrom_eq (mem : Nat → Slab) :
    ∀ (l : List Nat) (fuel : Nat),
      l.Chain' (fun x y => (mem x).next = y) →
      (∀ x, l.getLast? = some x → (mem x).next = 0) →
      (∀ x ∈ l.drop 1, x ≠ 0) →
      l.length ≤ fuel →
      chainFrom mem l.head? fuel = l := by
  intro l
  induction l with
  | nil =>
    intro fuel _ _ _ _
    cases fuel <;> rfl
  | cons a rest ih =>
    intro fuel hch hlast hnz hfuel
    cases fuel with
    | zero => simp at hfuel
    | succ f =>
      rw [List.head?_cons, chainFrom]
      cases rest with
      | nil =>
        rw [if_pos (hlast a rfl)]
      | cons b rest' =>
        rw [List.chain'_cons] at hch
        have hb : (mem a).next = b := hch.1
        have hbz : b ≠ 0 := hnz b (by simp)
        rw [if_neg (by rw [hb]; exact hbz), hb]
        congr 1
        have := ih f hch.2 (fun x hx => hlast x (by
            rw [List.getLast?_cons_cons]; exact hx))
          (fun x hx => hnz x (by simp; right; simpa using hx))
          (by simp at hfuel ⊢; omega)
        rw [List.head?_cons] at this
        exact this


theorem pairwise_lt_drop_one_ne_zero (l : List Nat) (h : l.Pairwise (· < ·)) :
    ∀ x ∈ l.drop 1, x ≠ 0 := by
  cases l with
  | nil => intro x hx; simp at hx
  | cons c t =>
    intro x hx he
    rw [List.drop_one, List.tail_cons] at hx
    have := (List.pairwise_cons.mp h).1 x hx
    omega

end Buddy

/-! ### Claim C9: the initial L0 free-list population -/


/-- Slab 0 (address `0`) satisfies the claim's condition — its index `0` is
`≥ kernel_end / L0 = 0x40000 / 0x80000 = 0` (integer floor), its bit is
clear after a reservation pass that set nothing, and it lies inside the
available memory `[0, 2·L0)` — yet it is not on the L0 free list: the
source starts at `kernel_end.next_multiple_of(L0) / L0 = 1`, the ceiling,
skipping the slab that straddles `kernel_end`. -/
theorem claim_C9_counterexample :
    Buddy.freeList (Buddy.add_available_slabs
        (Buddy.post_reservation_state ∅) (2 * Buddy.L0_SIZE) 0x40000) 0 4 =
      [Buddy.L0_SIZE] ∧
      0x40000 / Buddy.L0_SIZE ≤ 0 ∧
      (0 : Nat) < 2 * Buddy.L0_SIZE / Buddy.L0_SIZE ∧
      (0 : Nat) ∉ (∅ : Finset Nat) ∧
      0 * Buddy.L0_SIZE ∉ [Buddy.L0_SIZE] := by
  refine ⟨by decide, by decide, by decide, by decide, by decide⟩


/-- C9 (amended): after initialization over any reservation outcome, L0
slab `i` (address `i · L0`) is on the L0 free list exactly when
`⌈kernel_end / L0⌉ ≤ i` — the ceiling `(start + L0 − 1) / L0`, not the
floor the claim states — and `i < ⌊max_available / L0⌋` (the available
memory recorded by initialization) and slab `i`'s bit is still clear after
the reservation pass. -/
theorem claim_C9_l0_free_list (reserved : Finset Nat) (max_available start : Nat)
    (hmax : max_available < 2 ^ 64) (i : Nat) :
    ((i * Buddy.L0_SIZE) ∈ Buddy.freeList
        (Buddy.add_available_slabs (Buddy.post_reservation_state reserved)
          max_available start)
        0 (max_available / Buddy.L0_SIZE)) ↔
      ((start + Buddy.L0_SIZE - 1) / Buddy.L0_SIZE ≤ i ∧
        i < max_available / Buddy.L0_SIZE ∧ i ∉ reserved) := by
  have hL0 : Buddy.L0_SIZE = 2 ^ 19 := rfl
  have hL0pos : (0 : Nat) < Buddy.L0_SIZE := by norm_num [Buddy.L0_SIZE]
  have hslabs : Mapper.align max_available Buddy.L0_SIZE / Buddy.L0_SIZE =
      max_available / Buddy.L0_SIZE := by
    rw [hL0, align_two_pow max_available 19 hmax (by norm_num)]
    rw [Nat.mul_div_cancel _ (by norm_num)]
  have hstart : Mapper.next_multiple_of start Buddy.L0_SIZE / Buddy.L0_SIZE =
      (start + Buddy.L0_SIZE - 1) / Buddy.L0_SIZE := by
    rw [Mapper.next_multiple_of, Nat.mul_div_cancel _ hL0pos]
  set st0 := Buddy.post_reservation_state reserved with hst0
  have hlen : st0.layers.length = 8 := rfl
  have hrep0 : Buddy.Repr st0 0 [] :=
    ⟨rfl, rfl, List.chain'_nil, fun x hx => by simp at hx⟩
  set start_slab := Mapper.next_multiple_of start Buddy.L0_SIZE / Buddy.L0_SIZE
    with hss
  set slabs := Mapper.align max_available Buddy.L0_SIZE / Buddy.L0_SIZE with hsl
  obtain ⟨hflen, hfbits, hfrep, hfnd⟩ :=
    Buddy.add_avail_loop_repr (List.range' start_slab (slabs - start_slab)) st0 []
      hlen hrep0 List.nodup_nil (fun _ _ x hx => by simp at hx)
      (List.pairwise_lt_range' start_slab (slabs - start_slab))
  rw [List.nil_append] at hfrep hfnd
  set M := ((List.range' start_slab (slabs - start_slab)).filter
      (fun s => Buddy.is_available st0 0 s)).map (· * Buddy.L0_SIZE) with hM
  have hMpw : M.Pairwise (· < ·) := by
    rw [hM]
    exact List.Pairwise.map _
      (fun a b hab => (Nat.mul_lt_mul_right hL0pos).mpr hab)
      ((List.pairwise_lt_range' start_slab (slabs - start_slab)).sublist
        (List.filter_sublist _))
  have hMlen : M.length ≤ max_available / Buddy.L0_SIZE := by
    rw [hM, List.length_map]
    calc ((List.range' start_slab (slabs - start_slab)).filter _).length
        ≤ (List.range' start_slab (slabs - start_slab)).length :=
          List.length_filter_le _ _
      _ = slabs - start_slab := List.length_range' ..
      _ ≤ slabs := Nat.sub_le ..
      _ = max_available / Buddy.L0_SIZE := hslabs
  have hchain : Buddy.freeList (Buddy.add_avail_loop st0
      (List.range' start_slab (slabs - start_slab))) 0
      (max_available / Buddy.L0_SIZE) = M := by
    obtain ⟨hnext, _, hch, hlastm⟩ := hfrep
    rw [Buddy.freeList, hnext]
    exact Buddy.chainFrom_eq _ M (max_available / Buddy.L0_SIZE) hch hlastm
      (Buddy.pairwise_lt_drop_one_ne_zero M hMpw) hMlen
  rw [Buddy.add_available_slabs]
  rw [hchain]
  rw [hM]
  constructor
  · intro hmem
    obtain ⟨s, hsf, hse⟩ := List.mem_map.mp hmem
    have hsi : s = i := Nat.eq_of_mul_eq_mul_right hL0pos hse
    subst hsi
    obtain ⟨hsr, hsa⟩ := List.mem_filter.mp hsf
    rw [List.mem_range'_1] at hsr
    have hai : s ∉ reserved := by
      have : Buddy.is_available st0 0 s = true := hsa
      simpa [Buddy.is_available, hst0, Buddy.post_reservation_state,
        Buddy.layerOf] using this
    refine ⟨?_, ?_, hai⟩
    · rw [← hstart]; omega
    · rw [← hslabs]; omega
  · intro ⟨h1, h2, h3⟩
    apply List.mem_map.mpr
    refine ⟨i, List.mem_filter.mpr ⟨?_, ?_⟩, rfl⟩
    · rw [List.mem_range'_1]
      rw [← hstart] at h1
      rw [← hslabs] at h2
      omega
    · simpa [Buddy.is_available, hst0, Buddy.post_reservation_state,
        Buddy.layerOf] using h3


/-- Witness instantiating `claim_C9_l0_free_list`: with slabs 0 and 2
reserved, memory `[0, 4·L0)` and the kernel ending mid-slab at `L0/2`,
slab 3 is on the list (its index is at least the ceiling 1, below 4, and
unreserved). -/
theorem claim_C9_l0_free_list_witness :
    (3 * Buddy.L0_SIZE) ∈ Buddy.freeList
        (Buddy.add_available_slabs (Buddy.post_reservation_state {0, 2})
          (4 * Buddy.L0_SIZE) (Buddy.L0_SIZE / 2))
        0 (4 * Buddy.L0_SIZE / Buddy.L0_SIZE) :=
  (claim_C9_l0_free_list {0, 2} (4 * Buddy.L0_SIZE) (Buddy.L0_SIZE / 2)
    (by norm_num [Buddy.L0_SIZE]) 3).mpr (by refine ⟨by decide, by decide, by decide⟩)

end Metallium
